import Mathlib

/-!
Verification model for the zexe repository: the container format written by
zexe-bundler and read by zexe-runner, the Z80 and SZX snapshot decoders, the
RLE codec, and the poke-list parser.  Bytes are modelled as `Nat` entries of
`List Nat`; loops over cursor positions are modelled as fuelled structural
recursion (each source loop advances its position by at least one byte per
iteration, so a fuel of `input.length` always suffices).
-/

set_option linter.unusedVariables false

namespace Zexe

/-- Machine variants used by the decoders (the two constructors of
rustzx_core's ZXMachine that this code produces). -/
inductive ZXMachine where
  | Sinclair48K : ZXMachine
  | Sinclair128K : ZXMachine
deriving DecidableEq

/-! ## RLE codec (z80_loader.rs, decompress_z80_block, lines 209-236) -/

/-- Inner run of decompress_z80_block: `for _ in 0..count { if j < output.len()
{ output[j] = val; j += 1 } }`.  Returns the updated buffer and write index. -/
def rleRun (out : List Nat) (j cnt val : Nat) : List Nat × Nat :=
  match cnt with
  | 0 => (out, j)
  | Nat.succ c =>
    if j < out.length then rleRun (out.set j val) (j + 1) c val
    else rleRun out j c val

/-- Main loop of decompress_z80_block.  `i`/`j` are the input/output cursors;
the first argument after `input` is fuel (every iteration advances `i` by at
least 1, so fuel `input.length` is always enough). -/
def rleGo (input : List Nat) : Nat → Nat → Nat → List Nat → List Nat
  | 0, _, _, out => out
  | Nat.succ fuel, i, j, out =>
    if i < input.length ∧ j < out.length then
      if i + 4 ≤ input.length ∧ input.getD i 0 = 237 ∧ input.getD (i + 1) 0 = 237 then
        let r := rleRun out j (input.getD (i + 2) 0) (input.getD (i + 3) 0)
        rleGo input fuel (i + 4) r.2 r.1
      else
        rleGo input fuel (i + 1) (j + 1) (out.set j (input.getD i 0))
    else out

/-- decompress_z80_block: decode `input` into the fixed-size buffer `output`. -/
def decompress_z80_block (input output : List Nat) : List Nat :=
  rleGo input input.length 0 0 output

/-- Instrumented variant of the RLE loop in which every read of the input and
every write to the output is bounds-checked and returns `none` on an
out-of-range access.  Used to state the memory-safety claim. -/
def rleGoChecked (input : List Nat) : Nat → Nat → Nat → List Nat → Option (List Nat)
  | 0, _, _, out => some out
  | Nat.succ fuel, i, j, out =>
    if i < input.length ∧ j < out.length then
      if i + 4 ≤ input.length then
        match input[i]?, input[i + 1]? with
        | some a, some b =>
          if a = 237 ∧ b = 237 then
            match input[i + 2]?, input[i + 3]? with
            | some cnt, some val =>
              let r := rleRun out j cnt val
              rleGoChecked input fuel (i + 4) r.2 r.1
            | _, _ => none
          else
            if j < out.length then rleGoChecked input fuel (i + 1) (j + 1) (out.set j a)
            else none
        | _, _ => none
      else
        match input[i]? with
        | some a =>
          if j < out.length then rleGoChecked input fuel (i + 1) (j + 1) (out.set j a)
          else none
        | none => none
    else some out

/-- Expansion of an RLE stream as the specification describes it: a 4-byte
marker `ED ED cnt val` expands to `cnt` copies of `val`, any other byte is
copied verbatim, and a truncated trailing marker (fewer than 4 bytes left) is
copied byte-for-byte. -/
def rleSpecExpand : List Nat → List Nat
  | a :: b :: cnt :: val :: rest =>
    if a = 237 ∧ b = 237 then List.replicate cnt val ++ rleSpecExpand rest
    else a :: rleSpecExpand (b :: cnt :: val :: rest)
  | l => l

/-! ## Format A decoder (z80_loader.rs, convert_z80_to_sna) -/

/-- Result of parsing the 30-byte Z80 base header plus the optional extended
header (z80_loader.rs lines 10-93).  `bodyPos` is the cursor position at which
the memory body starts; `version` and the other extended fields are exactly
the local variables of the source. -/
structure Z80Pre where
  a : Nat
  f : Nat
  c : Nat
  b : Nat
  l : Nat
  h : Nat
  pcField : Nat
  spLow : Nat
  spHigh : Nat
  i : Nat
  r : Nat
  byte12 : Nat
  e : Nat
  d : Nat
  cAlt : Nat
  bAlt : Nat
  eAlt : Nat
  dAlt : Nat
  lAlt : Nat
  hAlt : Nat
  aAlt : Nat
  fAlt : Nat
  iyLow : Nat
  iyHigh : Nat
  ixLow : Nat
  ixHigh : Nat
  iff1 : Nat
  iff2 : Nat
  byte29 : Nat
  version : Nat
  pcReal : Nat
  hardwareMode : Nat
  port7ffd : Nat
  headerLen : Nat
  bodyPos : Nat
  machine : ZXMachine
deriving DecidableEq

/-- Hardware-mode byte to machine variant (z80_loader.rs lines 72-76):
0 and 1 give the 48K machine, 3..=13 give the 128K machine, anything else
falls back to 48K. -/
def z80Machine (hw : Nat) : ZXMachine :=
  if hw = 0 ∨ hw = 1 then ZXMachine.Sinclair48K
  else if 3 ≤ hw ∧ hw ≤ 13 then ZXMachine.Sinclair128K
  else ZXMachine.Sinclair48K

/-- Parse the Z80 base header and (when the PC field is zero) the extended
header, mirroring z80_loader.rs lines 10-93.  A read past the end of the
input is an error, exactly as `cursor.read_u8()?` is. -/
def parseZ80Prelude (input : List Nat) : Except String Z80Pre :=
  if input.length < 30 then Except.error "Z80 file too short"
  else
    let pcField := input.getD 6 0 + 256 * input.getD 7 0
    let base : Z80Pre :=
      { a := input.getD 0 0, f := input.getD 1 0, c := input.getD 2 0, b := input.getD 3 0
        l := input.getD 4 0, h := input.getD 5 0
        pcField := pcField
        spLow := input.getD 8 0, spHigh := input.getD 9 0
        i := input.getD 10 0, r := input.getD 11 0, byte12 := input.getD 12 0
        e := input.getD 13 0, d := input.getD 14 0
        cAlt := input.getD 15 0, bAlt := input.getD 16 0
        eAlt := input.getD 17 0, dAlt := input.getD 18 0
        lAlt := input.getD 19 0, hAlt := input.getD 20 0
        aAlt := input.getD 21 0, fAlt := input.getD 22 0
        iyLow := input.getD 23 0, iyHigh := input.getD 24 0
        ixLow := input.getD 25 0, ixHigh := input.getD 26 0
        iff1 := input.getD 27 0, iff2 := input.getD 28 0, byte29 := input.getD 29 0
        version := 1, pcReal := pcField, hardwareMode := 0, port7ffd := 0
        headerLen := 0, bodyPos := 30, machine := ZXMachine.Sinclair48K }
    if pcField = 0 then
      if input.length < 34 then Except.error "Z80 file truncated in extended header"
      else
        let headerLen := input.getD 30 0 + 256 * input.getD 31 0
        let pcReal := input.getD 32 0 + 256 * input.getD 33 0
        let hardwareMode := if 3 ≤ headerLen then input.getD 34 0 else 0
        let port7ffd := if 4 ≤ headerLen then input.getD 35 0 else 0
        let consumed : Nat :=
          if 4 ≤ headerLen then 4 else if 3 ≤ headerLen then 3
          else if 2 ≤ headerLen then 2 else 0
        let bodyPos := 34 + (consumed - 2) + (headerLen - consumed)
        let version := if headerLen = 23 then 2
          else if headerLen = 54 ∨ headerLen = 55 then 3 else 1
        if input.length < bodyPos then Except.error "Z80 file truncated in extended header"
        else
          Except.ok { base with
            version := version, pcReal := pcReal, hardwareMode := hardwareMode
            port7ffd := port7ffd, headerLen := headerLen, bodyPos := bodyPos
            machine := if 3 ≤ headerLen then z80Machine hardwareMode
              else ZXMachine.Sinclair48K }
    else Except.ok base

/-- The eight freshly initialised 16384-byte banks
(`vec![vec![0u8; 16384]; 8]`). -/
def zeroBanks : List (List Nat) := List.replicate 8 (List.replicate 16384 0)

/-- Copy of a prefix: `let len = rem.len().min(49152); dst[0..len].copy_from_slice(&rem[0..len])`
generalised to any destination buffer. -/
def copyIntoBuffer (src dst : List Nat) : List Nat :=
  let len := min src.length dst.length
  src.take len ++ dst.drop len

/-- Version-1 memory body (z80_loader.rs lines 99-114): the remainder of the
input is one flat block, RLE-compressed when bit 5 of byte 12 is set, loaded
into a 49152-byte buffer and split into banks 5, 2, 0. -/
def z80BanksV1 (input : List Nat) (p : Z80Pre) : List (List Nat) :=
  let dataRem := input.drop p.bodyPos
  let ram :=
    if p.byte12 / 32 % 2 = 1 then decompress_z80_block dataRem (List.replicate 49152 0)
    else copyIntoBuffer dataRem (List.replicate 49152 0)
  ((zeroBanks.set 5 (ram.take 16384)).set 2 ((ram.drop 16384).take 16384)).set 0
    ((ram.drop 32768).take 16384)

/-- Page-identifier to bank-index mapping (z80_loader.rs lines 129-141):
for 48K-class hardware modes pages 8, 4, 5 map to banks 5, 2, 0; for 128K
modes pages 3..=10 map to bank page-3.  `none` means the block is skipped. -/
def pageToBank (hw page : Nat) : Option Nat :=
  if hw ≤ 1 then
    if page = 8 then some 5 else if page = 4 then some 2
    else if page = 5 then some 0 else none
  else
    if 3 ≤ page ∧ page ≤ 10 then some (page - 3) else none

/-- Version ≥ 2 memory body (z80_loader.rs lines 116-148): length-prefixed
page-tagged blocks; length 0xFFFF means an uncompressed 16384-byte block.
First argument after `hw` is fuel (each iteration advances the position by at
least 3, so `input.length` is always enough). -/
def z80LoadBlocks (input : List Nat) (hw : Nat) :
    Nat → Nat → List (List Nat) → Except String (List (List Nat))
  | 0, _, banks => Except.ok banks
  | Nat.succ fuel, pos, banks =>
    if pos < input.length then
      if input.length < pos + 3 then Except.error "unexpected end of block header"
      else
        let blockLen := input.getD pos 0 + 256 * input.getD (pos + 1) 0
        let page := input.getD (pos + 2) 0
        let dataStart := pos + 3
        let dataEnd := dataStart + (if blockLen = 65535 then 16384 else blockLen)
        if input.length < dataEnd then Except.ok banks
        else
          let chunk := (input.drop dataStart).take (dataEnd - dataStart)
          match pageToBank hw page with
          | none => z80LoadBlocks input hw fuel dataEnd banks
          | some bi =>
            if blockLen = 65535 then
              z80LoadBlocks input hw fuel dataEnd (banks.set bi chunk)
            else
              z80LoadBlocks input hw fuel dataEnd
                (banks.set bi (decompress_z80_block chunk (banks.getD bi [])))
    else Except.ok banks

/-- Memory body dispatcher: version 1 loads one flat block, any other version
walks the block list (z80_loader.rs lines 99-149). -/
def z80Banks (input : List Nat) (p : Z80Pre) : Except String (List (List Nat)) :=
  if p.version = 1 then Except.ok (z80BanksV1 input p)
  else z80LoadBlocks input p.hardwareMode input.length p.bodyPos zeroBanks

/-- The 27-byte SNA register header as pushed by z80_loader.rs lines 152-168
(I, HL', DE', BC', AF', HL, DE, BC, IY, IX, IFF byte, R, AF, SP, IM, border). -/
def snaHeaderZ80 (p : Z80Pre) : List Nat :=
  [p.i,
   p.lAlt, p.hAlt, p.eAlt, p.dAlt, p.cAlt, p.bAlt, p.fAlt, p.aAlt,
   p.l, p.h, p.e, p.d, p.c, p.b,
   p.iyLow, p.iyHigh, p.ixLow, p.ixHigh,
   p.iff2 / 4 % 2 + 2,
   p.r % 128 + p.byte12 % 2 * 128,
   p.f, p.a,
   p.spLow, p.spHigh,
   p.byte29 % 4,
   p.byte12 / 2 % 8]

/-- The 16-bit SP value `u16::from_le_bytes([sp_low, sp_high])`. -/
def z80Sp (p : Z80Pre) : Nat := p.spLow + 256 * p.spHigh

/-- 48K SNA construction (z80_loader.rs lines 170-184): header, banks 5, 2, 0,
SP decremented by two (wrapping) into header bytes 23/24, and the PC pushed at
SP-2 inside the buffer when that offset lies within it. -/
def z80Build48 (p : Z80Pre) (banks : List (List Nat)) : List Nat :=
  let sna0 := snaHeaderZ80 p ++ banks.getD 5 [] ++ banks.getD 2 [] ++ banks.getD 0 []
  let newSp := (z80Sp p + 65534) % 65536
  let sna1 := (sna0.set 23 (newSp % 256)).set 24 (newSp / 256 % 256)
  if 16384 ≤ newSp then
    let off := 27 + (newSp - 16384)
    if off + 1 < sna1.length then
      (sna1.set off (p.pcReal % 256)).set (off + 1) (p.pcReal / 256 % 256)
    else sna1
  else sna1

/-- Concatenation of the remaining banks in ascending index order, skipping
banks 5, 2 and the active bank (z80_loader.rs lines 199-203). -/
def remainingBanks (banks : List (List Nat)) (act : Nat) : List Nat :=
  (((List.range 8).filter fun k => decide (¬(k = 5 ∨ k = 2 ∨ k = act))).map
    fun k => banks.getD k []).flatten

/-- 128K SNA construction (z80_loader.rs lines 186-203): header, banks 5, 2
and the active bank, the 4-byte extension header (PC low/high, port 0x7FFD,
TR-DOS byte 0), then the remaining banks in ascending order. -/
def z80Build128 (p : Z80Pre) (banks : List (List Nat)) : List Nat :=
  let act := p.port7ffd % 8
  snaHeaderZ80 p ++ banks.getD 5 [] ++ banks.getD 2 [] ++ banks.getD act [] ++
    [p.pcReal % 256, p.pcReal / 256 % 256, p.port7ffd, 0] ++ remainingBanks banks act

/-- convert_z80_to_sna: parse the headers, load the memory body, and build
the canonical SNA buffer for the selected machine variant. -/
def convert_z80_to_sna (input : List Nat) : Except String (List Nat × ZXMachine) :=
  match parseZ80Prelude input with
  | Except.error msg => Except.error msg
  | Except.ok p =>
    match z80Banks input p with
    | Except.error msg => Except.error msg
    | Except.ok banks =>
      if p.machine = ZXMachine.Sinclair48K then Except.ok (z80Build48 p banks, p.machine)
      else Except.ok (z80Build128 p banks, p.machine)

/-! ## Format B decoder (szx_loader.rs, convert_szx_to_sna)

The generic zlib decompressor used for RAM-page chunks is an external library
(flate2); it is passed in as a parameter `dec`, with `none` modelling a
decompression failure. -/

/-- Little-endian 32-bit read at `off` (byteorder's `read_u32::<LE>`). -/
def readU32 (l : List Nat) (off : Nat) : Nat :=
  l.getD off 0 + 256 * l.getD (off + 1) 0 + 65536 * l.getD (off + 2) 0 +
    16777216 * l.getD (off + 3) 0

/-- Accumulated state of the SZX chunk walk: the 0x25-byte register buffer,
the page map, the border colour and the 0x7FFD port value. -/
structure SzxState where
  regs : List Nat
  pages : List (Nat × List Nat)
  border : Nat
  port7ffd : Nat
deriving DecidableEq

/-- Initial SZX state (regs zeroed, no pages). -/
def szxInit : SzxState := ⟨List.replicate 37 0, [], 0, 0⟩

/-- HashMap::insert (later inserts shadow earlier ones). -/
def mapInsert (m : List (Nat × List Nat)) (k : Nat) (v : List Nat) : List (Nat × List Nat) :=
  (k, v) :: m

/-- HashMap::get. -/
def mapGet (m : List (Nat × List Nat)) (k : Nat) : Option (List Nat) :=
  (m.find? fun entry => entry.1 == k).map fun entry => entry.2

/-- Parse the 8-byte SZX header (szx_loader.rs lines 10-26): signature
"ZXST", version bytes, machine identifier, flags.  Returns the machine
variant and whether it is the 128K one. -/
def szxParseHeader (input : List Nat) : Except String (ZXMachine × Bool) :=
  if input.length < 8 then Except.error "failed to read SZX header"
  else if input.take 4 ≠ [90, 88, 83, 84] then Except.error "Invalid SZX signature"
  else
    let machineId := input.getD 6 0
    if machineId = 1 ∨ machineId = 2 then Except.ok (ZXMachine.Sinclair48K, false)
    else if 3 ≤ machineId ∧ machineId ≤ 6 then Except.ok (ZXMachine.Sinclair128K, true)
    else Except.error "Unsupported machine ID in SZX"

/-- The SZX chunk loop (szx_loader.rs lines 34-78).  Each chunk is a 4-byte
tag, a 32-bit little-endian size, and `size` payload bytes; the cursor then
jumps to the position after the declared payload.  A failed tag read ends the
loop; any other failed read is an error.  A RAMP chunk whose declared size is
below 3 makes the `size - 3` payload read fail (u32 underflow), hence the
error.  First argument after `input` is fuel (each iteration advances the
position by at least 8, so `input.length` is always enough). -/
def szxChunks (dec : List Nat → Option (List Nat)) (input : List Nat) :
    Nat → Nat → SzxState → Except String SzxState
  | 0, _, st => Except.ok st
  | Nat.succ fuel, pos, st =>
    if pos < input.length then
      if input.length < pos + 4 then Except.ok st
      else if input.length < pos + 8 then Except.error "failed to read chunk size"
      else
        let tag := (input.drop pos).take 4
        let size := readU32 input (pos + 4)
        let posB := pos + 8
        let next := posB + size
        if tag = [90, 56, 48, 82] then
          let readSize := min size 37
          if input.length < posB + readSize then Except.error "failed to read Z80R chunk"
          else
            szxChunks dec input fuel next
              { st with regs := (input.drop posB).take readSize ++ st.regs.drop readSize }
        else if tag = [82, 65, 77, 80] then
          if size < 3 then Except.error "failed to read RAMP chunk"
          else if input.length < posB + size then Except.error "failed to read RAMP chunk"
          else
            let flags := input.getD posB 0 + 256 * input.getD (posB + 1) 0
            let pageNo := input.getD (posB + 2) 0
            let data := (input.drop (posB + 3)).take (size - 3)
            if flags % 2 = 1 then
              match dec data with
              | some pageData =>
                if pageData.length = 16384 then
                  szxChunks dec input fuel next
                    { st with pages := mapInsert st.pages pageNo pageData }
                else szxChunks dec input fuel next st
              | none => Except.error "Failed to decompress RAM page"
            else
              if data.length = 16384 then
                szxChunks dec input fuel next
                  { st with pages := mapInsert st.pages pageNo data }
              else szxChunks dec input fuel next st
        else if tag = [83, 80, 67, 82] then
          if input.length < posB + 2 then Except.error "failed to read SPCR chunk"
          else
            szxChunks dec input fuel next
              { st with border := input.getD posB 0, port7ffd := input.getD (posB + 1) 0 }
        else szxChunks dec input fuel next st
    else Except.ok st

/-- The 27-byte SNA register header as pushed by szx_loader.rs (both the 48K
and the 128K branch push exactly these bytes, with register offsets into the
Z80R chunk buffer). -/
def snaHeaderSzx (st : SzxState) : List Nat :=
  [st.regs.getD 24 0,
   st.regs.getD 14 0, st.regs.getD 15 0,
   st.regs.getD 12 0, st.regs.getD 13 0,
   st.regs.getD 10 0, st.regs.getD 11 0,
   st.regs.getD 8 0, st.regs.getD 9 0,
   st.regs.getD 6 0, st.regs.getD 7 0,
   st.regs.getD 4 0, st.regs.getD 5 0,
   st.regs.getD 2 0, st.regs.getD 3 0,
   st.regs.getD 18 0, st.regs.getD 19 0,
   st.regs.getD 16 0, st.regs.getD 17 0,
   (if st.regs.getD 27 0 ≠ 0 then 4 else 0) + 2,
   st.regs.getD 25 0,
   st.regs.getD 0 0, st.regs.getD 1 0,
   st.regs.getD 20 0, st.regs.getD 21 0,
   st.regs.getD 28 0,
   st.border % 8]

/-- 48K SNA construction from SZX state (szx_loader.rs lines 80-138):
header with SP bytes replaced by SP-2, RAM = pages 5, 2, 0, and the PC pushed
at SP-2 inside the RAM when that offset lies within it. -/
def szxBuild48 (st : SzxState) : Except String (List Nat) :=
  match mapGet st.pages 5, mapGet st.pages 2, mapGet st.pages 0 with
  | some p5, some p2, some p0 =>
    let pcLow := st.regs.getD 22 0
    let pcHigh := st.regs.getD 23 0
    let spVal := st.regs.getD 20 0 + 256 * st.regs.getD 21 0
    let newSp := (spVal + 65534) % 65536
    let hdr := ((snaHeaderSzx st).set 23 (newSp % 256)).set 24 (newSp / 256 % 256)
    let ram := p5 ++ p2 ++ p0
    let ram1 :=
      if 16384 ≤ newSp then
        let off := newSp - 16384
        if off + 1 < ram.length then (ram.set off pcLow).set (off + 1) pcHigh else ram
      else ram
    Except.ok (hdr ++ ram1)
  | _, _, _ => Except.error "Missing RAM page"

/-- Collect the pages listed in `ks` from the page map, failing on the first
missing one (the `ok_or_else` in the remaining-pages loop). -/
def szxCollect (pages : List (Nat × List Nat)) : List Nat → Except String (List Nat)
  | [] => Except.ok []
  | k :: ks =>
    match mapGet pages k with
    | some p => (szxCollect pages ks).map fun rest => p ++ rest
    | none => Except.error "Missing RAM page"

/-- 128K SNA construction from SZX state (szx_loader.rs lines 140-193):
header, pages 5, 2 and the active page, the 4-byte extension header, then the
remaining pages in ascending page-number order. -/
def szxBuild128 (st : SzxState) : Except String (List Nat) :=
  match mapGet st.pages 5, mapGet st.pages 2 with
  | some p5, some p2 =>
    let act := st.port7ffd % 8
    match mapGet st.pages act with
    | some pCur =>
      match szxCollect st.pages
          ((List.range 8).filter fun k => decide (¬(k = 5 ∨ k = 2 ∨ k = act))) with
      | Except.ok rest =>
        Except.ok (snaHeaderSzx st ++ p5 ++ p2 ++ pCur ++
          [st.regs.getD 22 0, st.regs.getD 23 0, st.port7ffd, 0] ++ rest)
      | Except.error msg => Except.error msg
    | none => Except.error "Missing current RAM page"
  | _, _ => Except.error "Missing RAM page"

/-- convert_szx_to_sna, parameterised by the zlib decompressor `dec`. -/
def convert_szx_to_sna (dec : List Nat → Option (List Nat)) (input : List Nat) :
    Except String (List Nat × ZXMachine) :=
  match szxParseHeader input with
  | Except.error msg => Except.error msg
  | Except.ok (machine, is128) =>
    match szxChunks dec input input.length 8 szxInit with
    | Except.error msg => Except.error msg
    | Except.ok st =>
      if is128 then (szxBuild128 st).map fun sna => (sna, machine)
      else (szxBuild48 st).map fun sna => (sna, machine)

/-! ## Container writer (zexe-bundler/src/main.rs) and reader
(zexe-runner/src/main.rs lines 316-389)

The zlib codec (flate2) is external: the writer takes a `compress` function
and the reader a `dec` function, `none` modelling a decompression failure.
After decompression the runner additionally decodes shader/pokes text as
UTF-8 and config as JSON; those external library steps are downstream of
what is modelled here, which is the byte payload of each resource. -/

/-- Little-endian byte encoding of a u32 value (the in-memory layout of the
`#[repr(C)]` Footer fields on the little-endian targets the transmute-based
source relies on). -/
def le32 (n : Nat) : List Nat :=
  [n % 256, n / 256 % 256, n / 65536 % 256, n / 16777216 % 256]

/-- The 20-byte trailer: magic "ZXND" then the four compressed sizes. -/
def footerBytes (ss shs ps cs : Nat) : List Nat :=
  [90, 88, 78, 68] ++ le32 ss ++ le32 shs ++ le32 ps ++ le32 cs

/-- Bundler output (zexe-bundler main, steps 6-7): runner image, compressed
snapshot, the optional compressed resources that are present (non-empty),
then the trailer with the four sizes truncated to u32. -/
def bundleOutput (compress : List Nat → List Nat)
    (runner snapshot shader pokes config : List Nat) : List Nat :=
  let cs := compress snapshot
  let csh := if shader.isEmpty then [] else compress shader
  let cpk := if pokes.isEmpty then [] else compress pokes
  let ccf := if config.isEmpty then [] else compress config
  runner ++ cs ++ csh ++ cpk ++ ccf ++
    footerBytes (cs.length % 4294967296) (csh.length % 4294967296)
      (cpk.length % 4294967296) (ccf.length % 4294967296)

/-- Parsed trailer fields read back from the last 20 bytes of a file. -/
structure FooterR where
  magic : List Nat
  snapshotSize : Nat
  shaderSize : Nat
  pokesSize : Nat
  configSize : Nat
deriving DecidableEq

/-- Read the trailer from the tail of the file (the seek to End(-20) plus the
transmute in the runner). -/
def readFooter (file : List Nat) : FooterR :=
  let t := file.drop (file.length - 20)
  ⟨t.take 4, readU32 t 4, readU32 t 8, readU32 t 12, readU32 t 16⟩

/-- Resources produced by extraction: the snapshot byte buffer (empty when
absent or failed) and the three optional resource payloads. -/
structure Resources where
  snapshot : List Nat
  shader : Option (List Nat)
  pokes : Option (List Nat)
  config : Option (List Nat)
deriving DecidableEq

/-- Container extraction (zexe-runner main, lines 331-386).  A file shorter
than the trailer, or one whose magic does not match, yields zero embedded
resources.  Offsets are computed backward from the file end; if the declared
sizes exceed the file the snapshot read fails (error).  A snapshot
decompression failure is absorbed by `unwrap_or_default` into an empty
buffer; optional resources are read only when their size is positive and
their decompression failure leaves them absent. -/
def extractResources (dec : List Nat → Option (List Nat)) (file : List Nat) :
    Except String Resources :=
  if file.length < 20 then Except.ok ⟨[], none, none, none⟩
  else
    let f := readFooter file
    if f.magic ≠ [90, 88, 78, 68] then Except.ok ⟨[], none, none, none⟩
    else
      let fl := file.length
      if fl < 20 + f.configSize + f.pokesSize + f.shaderSize + f.snapshotSize then
        Except.error "failed to read snapshot"
      else
        let snapOff := fl - 20 - f.configSize - f.pokesSize - f.shaderSize - f.snapshotSize
        let snap := (dec ((file.drop snapOff).take f.snapshotSize)).getD []
        let shader :=
          if 0 < f.shaderSize then
            dec ((file.drop (fl - 20 - f.configSize - f.pokesSize - f.shaderSize)).take
              f.shaderSize)
          else none
        let pokes :=
          if 0 < f.pokesSize then
            dec ((file.drop (fl - 20 - f.configSize - f.pokesSize)).take f.pokesSize)
          else none
        let config :=
          if 0 < f.configSize then
            dec ((file.drop (fl - 20 - f.configSize)).take f.configSize)
          else none
        Except.ok ⟨snap, shader, pokes, config⟩

/-- Decompressor that always fails, for the C4 analysis. -/
def failDec : List Nat → Option (List Nat) := fun _ => none

/-- File for the C4 counterexample: a 1-byte body declared as the compressed
snapshot (size 1, optional sizes 0) behind a valid trailer; `failDec` fails to
decompress it. -/
def c4File : List Nat := [1] ++ footerBytes 1 0 0 0

/-! ## Poke-list parsing (zexe-runner main.rs, parse_pokes_content, lines 116-131)

Text is modelled as `List Char`.  `rustSplitLines` and `rustSplitWhitespace`
are the semantics of Rust's `str::lines` and `str::split_whitespace`;
`parseBounded` is `str::parse::<uN>` for unsigned integers. -/

/-- Strip one trailing carriage return, as `str::lines` does per line. -/
def stripCR (l : List Char) : List Char :=
  match l.getLast? with
  | some c => if c = '\r' then l.dropLast else l
  | none => l

/-- Helper for `rustSplitLines`: `cur` is the current line accumulated in
reverse. -/
def rustSplitLinesAux : List Char → List Char → List (List Char)
  | [], cur => if cur.isEmpty then [] else [stripCR cur.reverse]
  | c :: rest, cur =>
    if c = '\n' then stripCR cur.reverse :: rustSplitLinesAux rest []
    else rustSplitLinesAux rest (c :: cur)

/-- Rust `str::lines`: split on newlines, stripping one trailing carriage
return per line, without a trailing empty line. -/
def rustSplitLines (s : List Char) : List (List Char) :=
  rustSplitLinesAux s []

/-- Unicode White_Space property, as used by Rust's char::is_whitespace. -/
def rustIsWhitespace (c : Char) : Bool :=
  c.toNat ∈ [9, 10, 11, 12, 13, 32, 133, 160, 5760, 8192, 8193, 8194, 8195,
    8196, 8197, 8198, 8199, 8200, 8201, 8202, 8232, 8233, 8239, 8287, 12288]

/-- Helper for `rustSplitWhitespace`: `cur` is the current word accumulated
in reverse. -/
def rustSplitWhitespaceAux : List Char → List Char → List (List Char)
  | [], cur => if cur.isEmpty then [] else [cur.reverse]
  | c :: rest, cur =>
    if rustIsWhitespace c then
      if cur.isEmpty then rustSplitWhitespaceAux rest []
      else cur.reverse :: rustSplitWhitespaceAux rest []
    else rustSplitWhitespaceAux rest (c :: cur)

/-- Rust `str::split_whitespace`: the whitespace-separated words. -/
def rustSplitWhitespace (s : List Char) : List (List Char) :=
  rustSplitWhitespaceAux s []

/-- Rust `str::parse` for an unsigned integer type with `bound` values:
an optional leading plus sign, then one or more ASCII digits, value below
`bound`; anything else is a parse error. -/
def parseBounded (bound : Nat) (s : List Char) : Option Nat :=
  let t := match s with
    | '+' :: r => r
    | _ => s
  if t.isEmpty then none
  else if t.all fun c => c.isDigit then
    let n := t.foldl (fun acc c => acc * 10 + (c.toNat - 48)) 0
    if n < bound then some n else none
  else none

/-- A reversible single-byte memory patch. -/
structure PokeEntry where
  addr : Nat
  value : Nat
  original : Nat
deriving DecidableEq

/-- The per-line test and extraction of parse_pokes_content: at least five
whitespace-separated fields, first field "M" or "Z", fields 2, 3, 4 parsing
as u16, u8, u8. -/
def pokeLine (line : List Char) : Option PokeEntry :=
  let parts := rustSplitWhitespace line
  if 5 ≤ parts.length ∧ (parts.getD 0 [] = ['M'] ∨ parts.getD 0 [] = ['Z']) then
    match parseBounded 65536 (parts.getD 2 []), parseBounded 256 (parts.getD 3 []),
        parseBounded 256 (parts.getD 4 []) with
    | some a, some v, some o => some ⟨a, v, o⟩
    | _, _, _ => none
  else none

/-- parse_pokes_content: walk the lines, pushing one entry per qualifying
line. -/
def parse_pokes_content (content : List Char) : List PokeEntry :=
  (rustSplitLines content).foldl
    (fun acc line =>
      match pokeLine line with
      | some entry => acc ++ [entry]
      | none => acc) []

/-! ## Shape invariants and concrete inputs for the snapshot-decoder claims -/

/-- Well-formedness of a bank vector: eight banks of 16384 bytes each
(the shape `vec![vec![0u8; 16384]; 8]` keeps through the loaders). -/
def BanksGood (banks : List (List Nat)) : Prop :=
  banks.length = 8 ∧ ∀ b ∈ banks, b.length = 16384

/-- Well-formedness of the SZX page map: every stored page is 16384 bytes
(the chunk walk only inserts pages after that length check). -/
def PagesGood (pages : List (Nat × List Nat)) : Prop :=
  ∀ e ∈ pages, e.2.length = 16384

/-- A blank 16384-byte RAM page. -/
def zeroPage : List Nat := List.replicate 16384 0

/-- A decompressor stub whose every output is the blank page, standing in
for zlib on the concrete witness inputs below. -/
def decZero : List Nat → Option (List Nat) := fun _ => some zeroPage

/-- A minimal compressed RAMP chunk for page `p`: declared size 3, flags
byte 1 (compressed), empty compressed payload. -/
def rampChunkC (p : Nat) : List Nat := [82, 65, 77, 80, 3, 0, 0, 0, 1, 0, p]

/-- A 30-byte version-1 Z80 snapshot: PC = 0x8000, SP = 2, empty body. -/
def c2z : List Nat :=
  [0, 0, 0, 0, 0, 0, 0, 128, 2, 0, 0, 0, 0, 0, 0,
   0, 0, 0, 0, 0, 0, 0, 0, 0, 0, 0, 0, 0, 0, 0]

/-- The parsed prelude of `c2z`. -/
def c2zPre : Z80Pre :=
  { a := 0, f := 0, c := 0, b := 0, l := 0, h := 0, pcField := 32768,
    spLow := 2, spHigh := 0, i := 0, r := 0, byte12 := 0, e := 0, d := 0,
    cAlt := 0, bAlt := 0, eAlt := 0, dAlt := 0, lAlt := 0, hAlt := 0,
    aAlt := 0, fAlt := 0, iyLow := 0, iyHigh := 0, ixLow := 0, ixHigh := 0,
    iff1 := 0, iff2 := 0, byte29 := 0, version := 1, pcReal := 32768,
    hardwareMode := 0, port7ffd := 0, headerLen := 0, bodyPos := 30,
    machine := ZXMachine.Sinclair48K }

/-- A 48K SZX file: header, a Z80R chunk setting SP = 2, and compressed
RAMP chunks for pages 5, 2, 0. -/
def c2s : List Nat :=
  [90, 88, 83, 84, 1, 0, 1, 0] ++
  ([90, 56, 48, 82, 21, 0, 0, 0] ++ (List.replicate 20 0 ++ [2])) ++
  rampChunkC 5 ++ rampChunkC 2 ++ rampChunkC 0

/-- The register buffer after `c2s`'s Z80R chunk (byte 20 = SP low = 2). -/
def c2sRegs : List Nat := List.replicate 20 0 ++ [2] ++ List.replicate 16 0

/-- Chunk-walk state of `c2s` after the Z80R chunk. -/
def c2sSt1 : SzxState := ⟨c2sRegs, [], 0, 0⟩

/-- Chunk-walk state of `c2s` after the page-5 RAMP chunk. -/
def c2sSt2 : SzxState := ⟨c2sRegs, [(5, zeroPage)], 0, 0⟩

/-- Chunk-walk state of `c2s` after the page-2 RAMP chunk. -/
def c2sSt3 : SzxState := ⟨c2sRegs, [(2, zeroPage), (5, zeroPage)], 0, 0⟩

/-- Final chunk-walk state of `c2s`. -/
def c2sSt : SzxState := ⟨c2sRegs, [(0, zeroPage), (2, zeroPage), (5, zeroPage)], 0, 0⟩

/-- The 48K SNA buffer built from `c2sSt`. -/
def c2sOut : List Nat :=
  ((snaHeaderSzx c2sSt).set 23 0).set 24 0 ++ (zeroPage ++ zeroPage ++ zeroPage)

/-- A version-2 Z80 snapshot (extended length 23) for 128K hardware mode 4
with paging port 5, i.e. active page 5, and an empty block list. -/
def c3z : List Nat :=
  [0, 0, 0, 0, 0, 0, 0, 0, 0, 0, 0, 0, 0, 0, 0,
   0, 0, 0, 0, 0, 0, 0, 0, 0, 0, 0, 0, 0, 0, 0] ++
  [23, 0] ++ [0, 64] ++ [4] ++ [5] ++ List.replicate 19 0

/-- The parsed prelude of `c3z`. -/
def c3zPre : Z80Pre :=
  { a := 0, f := 0, c := 0, b := 0, l := 0, h := 0, pcField := 0,
    spLow := 0, spHigh := 0, i := 0, r := 0, byte12 := 0, e := 0, d := 0,
    cAlt := 0, bAlt := 0, eAlt := 0, dAlt := 0, lAlt := 0, hAlt := 0,
    aAlt := 0, fAlt := 0, iyLow := 0, iyHigh := 0, ixLow := 0, ixHigh := 0,
    iff1 := 0, iff2 := 0, byte29 := 0, version := 2, pcReal := 16384,
    hardwareMode := 4, port7ffd := 5, headerLen := 23, bodyPos := 55,
    machine := ZXMachine.Sinclair128K }

/-- Like `c3z` but with paging port 0 (active page 0). -/
def c3w : List Nat :=
  [0, 0, 0, 0, 0, 0, 0, 0, 0, 0, 0, 0, 0, 0, 0,
   0, 0, 0, 0, 0, 0, 0, 0, 0, 0, 0, 0, 0, 0, 0] ++
  [23, 0] ++ [0, 64] ++ [4] ++ [0] ++ List.replicate 19 0

/-- The parsed prelude of `c3w`. -/
def c3wPre : Z80Pre :=
  { a := 0, f := 0, c := 0, b := 0, l := 0, h := 0, pcField := 0,
    spLow := 0, spHigh := 0, i := 0, r := 0, byte12 := 0, e := 0, d := 0,
    cAlt := 0, bAlt := 0, eAlt := 0, dAlt := 0, lAlt := 0, hAlt := 0,
    aAlt := 0, fAlt := 0, iyLow := 0, iyHigh := 0, ixLow := 0, ixHigh := 0,
    iff1 := 0, iff2 := 0, byte29 := 0, version := 2, pcReal := 16384,
    hardwareMode := 4, port7ffd := 0, headerLen := 23, bodyPos := 55,
    machine := ZXMachine.Sinclair128K }

/-- A 128K SZX file (machine id 3): compressed RAMP chunks for pages 0-7. -/
def c3s : List Nat :=
  [90, 88, 83, 84, 1, 0, 3, 0] ++
  rampChunkC 0 ++ rampChunkC 1 ++ rampChunkC 2 ++ rampChunkC 3 ++
  rampChunkC 4 ++ rampChunkC 5 ++ rampChunkC 6 ++ rampChunkC 7

/-- Chunk-walk state of `c3s` after its first `n` RAMP chunks. -/
def c3sStAt (n : Nat) : SzxState :=
  ⟨List.replicate 37 0, (List.range n).reverse.map fun k => (k, zeroPage), 0, 0⟩

/-- The remaining-pages suffix of the 128K SNA built from `c3s`
(pages 1, 3, 4, 6, 7). -/
def c3sRest : List Nat :=
  zeroPage ++ (zeroPage ++ (zeroPage ++ (zeroPage ++ (zeroPage ++ []))))

/-- The 128K SNA buffer built from `c3s`'s final state. -/
def c3sOut : List Nat :=
  snaHeaderSzx (c3sStAt 8) ++ zeroPage ++ zeroPage ++ zeroPage ++
    [0, 0, 0, 0] ++ c3sRest

/-- A Z80 snapshot with PC field 0 and extended length 2 (neither 23, 54
nor 55), followed by a 6-byte body. -/
def c7z : List Nat :=
  [0, 0, 0, 0, 0, 0, 0, 0, 0, 0, 0, 0, 0, 0, 0,
   0, 0, 0, 0, 0, 0, 0, 0, 0, 0, 0, 0, 0, 0, 0] ++
  [2, 0] ++ [0, 128] ++ [3, 0, 8, 170, 187, 204]

/-- The parsed prelude of `c7z`: the version stays 1. -/
def c7zPre : Z80Pre :=
  { a := 0, f := 0, c := 0, b := 0, l := 0, h := 0, pcField := 0,
    spLow := 0, spHigh := 0, i := 0, r := 0, byte12 := 0, e := 0, d := 0,
    cAlt := 0, bAlt := 0, eAlt := 0, dAlt := 0, lAlt := 0, hAlt := 0,
    aAlt := 0, fAlt := 0, iyLow := 0, iyHigh := 0, ixLow := 0, ixHigh := 0,
    iff1 := 0, iff2 := 0, byte29 := 0, version := 1, pcReal := 32768,
    hardwareMode := 0, port7ffd := 0, headerLen := 2, bodyPos := 34,
    machine := ZXMachine.Sinclair48K }

/-- A 30-byte version-1 Z80 snapshot with SP = 2 and PC = 0x8000: the
wrapped SP-2 is 0, below the RAM base. -/
def c8z : List Nat :=
  [0, 0, 0, 0, 0, 0, 0, 128, 2, 0, 0, 0, 0, 0, 0,
   0, 0, 0, 0, 0, 0, 0, 0, 0, 0, 0, 0, 0, 0, 0]

/-- The parsed prelude of `c8z`. -/
def c8zPre : Z80Pre :=
  { a := 0, f := 0, c := 0, b := 0, l := 0, h := 0, pcField := 32768,
    spLow := 2, spHigh := 0, i := 0, r := 0, byte12 := 0, e := 0, d := 0,
    cAlt := 0, bAlt := 0, eAlt := 0, dAlt := 0, lAlt := 0, hAlt := 0,
    aAlt := 0, fAlt := 0, iyLow := 0, iyHigh := 0, ixLow := 0, ixHigh := 0,
    iff1 := 0, iff2 := 0, byte29 := 0, version := 1, pcReal := 32768,
    hardwareMode := 0, port7ffd := 0, headerLen := 0, bodyPos := 30,
    machine := ZXMachine.Sinclair48K }

/-- A 30-byte version-1 Z80 snapshot with SP = 0x8000 and PC = 0x1234: the
wrapped SP-2 lands inside the RAM image. -/
def c8w : List Nat :=
  [0, 0, 0, 0, 0, 0, 52, 18, 0, 128, 0, 0, 0, 0, 0,
   0, 0, 0, 0, 0, 0, 0, 0, 0, 0, 0, 0, 0, 0, 0]

/-- The parsed prelude of `c8w`. -/
def c8wPre : Z80Pre :=
  { a := 0, f := 0, c := 0, b := 0, l := 0, h := 0, pcField := 4660,
    spLow := 0, spHigh := 128, i := 0, r := 0, byte12 := 0, e := 0, d := 0,
    cAlt := 0, bAlt := 0, eAlt := 0, dAlt := 0, lAlt := 0, hAlt := 0,
    aAlt := 0, fAlt := 0, iyLow := 0, iyHigh := 0, ixLow := 0, ixHigh := 0,
    iff1 := 0, iff2 := 0, byte29 := 0, version := 1, pcReal := 4660,
    hardwareMode := 0, port7ffd := 0, headerLen := 0, bodyPos := 30,
    machine := ZXMachine.Sinclair48K }

/-! ## RLE codec lemmas -/

lemma rleRun_length (cnt : Nat) : ∀ (out : List Nat) (j val : Nat),
    (rleRun out j cnt val).1.length = out.length := by
  induction cnt with
  | zero => intro out j val; rfl
  | succ c ih =>
    intro out j val
    unfold rleRun
    split
    · rw [ih]
      exact List.length_set out j val
    · exact ih out j val

lemma set_take_succ (out : List Nat) (j : Nat) (a : Nat) (h : j < out.length) :
    (out.set j a).take (j + 1) = out.take j ++ [a] := by
  rw [List.set_eq_take_append_cons_drop, if_pos h]
  rw [List.take_append_eq_append_take]
  rw [List.take_of_length_le (by simp [List.length_take])]
  have hone : j + 1 - (out.take j).length = 1 := by
    simp [List.length_take]
    omega
  rw [hone]
  rfl

lemma rleRun_eq (cnt : Nat) : ∀ (out : List Nat) (j val : Nat), j ≤ out.length →
    rleRun out j cnt val =
      (out.take j ++ List.replicate (min cnt (out.length - j)) val ++
        out.drop (j + min cnt (out.length - j)),
       j + min cnt (out.length - j)) := by
  induction cnt with
  | zero =>
    intro out j val h
    simp [rleRun, List.take_append_drop]
  | succ c ih =>
    intro out j val h
    unfold rleRun
    by_cases hj : j < out.length
    · rw [if_pos hj]
      rw [ih (out.set j val) (j + 1) val (by rw [List.length_set]; omega)]
      rw [List.length_set]
      have hm : min (c + 1) (out.length - j) = min c (out.length - (j + 1)) + 1 := by omega
      rw [hm, set_take_succ out j val hj, List.drop_set_of_lt _ _ (by omega),
        List.replicate_succ]
      have hidx : j + (min c (out.length - (j + 1)) + 1) = j + 1 + min c (out.length - (j + 1)) := by
        omega
      rw [hidx]
      simp [List.append_assoc]
    · rw [if_neg hj]
      have hj' : j = out.length := by omega
      rw [ih out j val h]
      have h0 : min c (out.length - j) = 0 := by omega
      have h0' : min (c + 1) (out.length - j) = 0 := by omega
      rw [h0, h0']

lemma rleSpecExpand_short (l : List Nat) (h : l.length < 4) : rleSpecExpand l = l := by
  match l with
  | [] => rfl
  | [a] => rfl
  | [a, b] => rfl
  | [a, b, c] => rfl
  | a :: b :: c :: d :: rest => exact absurd h (by simp only [List.length_cons]; omega)

lemma rleSpecExpand_cons_of_not_marker (input : List Nat) (i : Nat) (hi : i < input.length)
    (hnm : ¬(i + 4 ≤ input.length ∧ input.getD i 0 = 237 ∧ input.getD (i + 1) 0 = 237)) :
    rleSpecExpand (input.drop i) = input.getD i 0 :: rleSpecExpand (input.drop (i + 1)) := by
  by_cases h4 : i + 4 ≤ input.length
  · have h1 : i + 1 < input.length := by omega
    have h2 : i + 2 < input.length := by omega
    have h3 : i + 3 < input.length := by omega
    have e0 : input.drop i = input[i] :: input.drop (i + 1) := List.drop_eq_getElem_cons hi
    have e1 : input.drop (i + 1) = input[i + 1] :: input.drop (i + 2) :=
      List.drop_eq_getElem_cons h1
    have e2 : input.drop (i + 2) = input[i + 2] :: input.drop (i + 3) :=
      List.drop_eq_getElem_cons h2
    have e3 : input.drop (i + 3) = input[i + 3] :: input.drop (i + 4) :=
      List.drop_eq_getElem_cons h3
    rw [e0, e1, e2, e3]
    rw [List.getD_eq_getElem input 0 hi]
    have hnc : ¬(input[i] = 237 ∧ input[i + 1] = 237) := by
      intro hc
      exact hnm ⟨h4, by rw [List.getD_eq_getElem input 0 hi]; exact hc.1,
        by rw [List.getD_eq_getElem input 0 h1]; exact hc.2⟩
    show (if input[i] = 237 ∧ input[i + 1] = 237 then _ else _) = _
    rw [if_neg hnc]
  · have hlen : (input.drop i).length < 4 := by simp [List.length_drop]; omega
    have hlen' : (input.drop (i + 1)).length < 4 := by simp [List.length_drop]; omega
    rw [rleSpecExpand_short _ hlen, rleSpecExpand_short _ hlen']
    rw [List.drop_eq_getElem_cons hi, List.getD_eq_getElem input 0 hi]

lemma rleSpecExpand_marker (input : List Nat) (i : Nat)
    (h4 : i + 4 ≤ input.length)
    (hm1 : input.getD i 0 = 237) (hm2 : input.getD (i + 1) 0 = 237) :
    rleSpecExpand (input.drop i) =
      List.replicate (input.getD (i + 2) 0) (input.getD (i + 3) 0) ++
        rleSpecExpand (input.drop (i + 4)) := by
  have hi : i < input.length := by omega
  have h1 : i + 1 < input.length := by omega
  have h2 : i + 2 < input.length := by omega
  have h3 : i + 3 < input.length := by omega
  have e0 : input.drop i = input[i] :: input.drop (i + 1) := List.drop_eq_getElem_cons hi
  have e1 : input.drop (i + 1) = input[i + 1] :: input.drop (i + 2) :=
    List.drop_eq_getElem_cons h1
  have e2 : input.drop (i + 2) = input[i + 2] :: input.drop (i + 3) :=
    List.drop_eq_getElem_cons h2
  have e3 : input.drop (i + 3) = input[i + 3] :: input.drop (i + 4) :=
    List.drop_eq_getElem_cons h3
  rw [e0, e1, e2, e3]
  show (if input[i] = 237 ∧ input[i + 1] = 237 then _ else _) = _
  rw [if_pos ⟨by rw [← List.getD_eq_getElem input 0 hi]; exact hm1,
    by rw [← List.getD_eq_getElem input 0 h1]; exact hm2⟩]
  rw [List.getD_eq_getElem input 0 h2, List.getD_eq_getElem input 0 h3]

lemma rleGo_spec (input : List Nat) : ∀ (fuel i j : Nat) (out : List Nat),
    input.length - i ≤ fuel → j ≤ out.length →
    rleGo input fuel i j out =
      out.take j ++ (rleSpecExpand (input.drop i)).take (out.length - j) ++
        out.drop (j + (rleSpecExpand (input.drop i)).length) := by
  intro fuel
  induction fuel with
  | zero =>
    intro i j out hfuel hj
    have hdrop : input.drop i = [] := List.drop_eq_nil_of_le (by omega)
    rw [rleGo, hdrop]
    show out = out.take j ++ ([] : List Nat).take (out.length - j) ++ out.drop (j + 0)
    simp [List.take_append_drop]
  | succ fuel ih =>
    intro i j out hfuel hj
    rw [rleGo]
    by_cases hij : i < input.length ∧ j < out.length
    · rw [if_pos hij]
      by_cases hm : i + 4 ≤ input.length ∧ input.getD i 0 = 237 ∧ input.getD (i + 1) 0 = 237
      · -- marker case
        rw [if_pos hm]
        set cnt := input.getD (i + 2) 0 with hcnt
        set val := input.getD (i + 3) 0 with hval
        rw [rleRun_eq cnt out j val (by omega)]
        set m := min cnt (out.length - j) with hmdef
        set E' := rleSpecExpand (input.drop (i + 4)) with hE'
        have hmle : m ≤ out.length - j := by omega
        have hA : (out.take j ++ List.replicate m val).length = j + m := by
          simp [List.length_append, List.length_take, List.length_replicate]
          omega
        have hout' :
            ((out.take j ++ List.replicate m val) ++ out.drop (j + m)).length = out.length := by
          simp [List.length_append, List.length_take, List.length_replicate, List.length_drop]
          omega
        rw [ih (i + 4) (j + m)
          ((out.take j ++ List.replicate m val) ++ out.drop (j + m))
          (by omega) (by rw [hout']; omega)]
        rw [hout']
        rw [rleSpecExpand_marker input i hm.1 hm.2.1 hm.2.2, ← hcnt, ← hval, ← hE']
        have htk : ((out.take j ++ List.replicate m val) ++ out.drop (j + m)).take (j + m) =
            out.take j ++ List.replicate m val := List.take_left' hA
        have hdp : ((out.take j ++ List.replicate m val) ++ out.drop (j + m)).drop
            (j + m + E'.length) = out.drop (j + m + E'.length) := by
          have e1 : j + m + E'.length = (out.take j ++ List.replicate m val).length +
              E'.length := by omega
          rw [e1, List.drop_append, List.drop_drop]
          rw [hA]
        rw [htk, hdp]
        rw [List.take_append_eq_append_take, List.take_replicate, List.length_replicate]
        have hmin : min (out.length - j) cnt = m := by omega
        rw [hmin]
        have hlenRE : (List.replicate cnt val ++ E').length = cnt + E'.length := by
          simp [List.length_append, List.length_replicate]
        rw [hlenRE]
        by_cases hc : cnt ≤ out.length - j
        · have hm' : m = cnt := by omega
          rw [hm']
          have e3 : out.length - j - cnt = out.length - (j + cnt) := by omega
          have e4 : j + (cnt + E'.length) = j + cnt + E'.length := by omega
          rw [e3, e4]
          simp [List.append_assoc]
        · have e6 : out.length - (j + m) = 0 := by omega
          have e7 : out.length - j - cnt = 0 := by omega
          rw [e6, e7]
          simp only [List.take_zero]
          rw [List.drop_eq_nil_of_le (show out.length ≤ j + m + E'.length by omega),
            List.drop_eq_nil_of_le (show out.length ≤ j + (cnt + E'.length) by omega)]
          simp
      · -- verbatim case
        rw [if_neg hm]
        rw [ih (i + 1) (j + 1) (out.set j (input.getD i 0)) (by omega)
          (by rw [List.length_set]; omega)]
        rw [List.length_set]
        rw [rleSpecExpand_cons_of_not_marker input i hij.1 hm]
        rw [set_take_succ out j _ hij.2]
        rw [List.drop_set_of_lt _ _ (by omega)]
        have e10 : out.length - j = (out.length - (j + 1)) + 1 := by omega
        rw [e10, List.take_succ_cons]
        have e11 : j + (input.getD i 0 :: rleSpecExpand (input.drop (i + 1))).length =
            j + 1 + (rleSpecExpand (input.drop (i + 1))).length := by
          simp [List.length_cons]
          omega
        rw [e11]
        simp [List.append_assoc]
    · rw [if_neg hij]
      by_cases hi : i < input.length
      · have hjout : j = out.length := by
          rcases Nat.lt_or_ge j out.length with hlt | hge
          · exact absurd ⟨hi, hlt⟩ hij
          · omega
        subst hjout
        rw [List.take_length]
        have e12 : out.length - out.length = 0 := by omega
        rw [e12]
        simp only [List.take_zero]
        rw [List.drop_eq_nil_of_le
          (show out.length ≤ out.length + (rleSpecExpand (input.drop i)).length by omega)]
        simp
      · have hdrop : input.drop i = [] := List.drop_eq_nil_of_le (by omega)
        rw [hdrop]
        show out = out.take j ++ ([] : List Nat).take (out.length - j) ++ out.drop (j + 0)
        simp [List.take_append_drop]

lemma rleGo_length (input : List Nat) : ∀ (fuel i j : Nat) (out : List Nat),
    (rleGo input fuel i j out).length = out.length := by
  intro fuel
  induction fuel with
  | zero => intro i j out; rfl
  | succ fuel ih =>
    intro i j out
    rw [rleGo]
    split
    · split
      · dsimp only
        rw [ih]
        exact rleRun_length _ _ _ _
      · rw [ih, List.length_set]
    · rfl

lemma rleGoChecked_eq (input : List Nat) : ∀ (fuel i j : Nat) (out : List Nat),
    rleGoChecked input fuel i j out = some (rleGo input fuel i j out) := by
  intro fuel
  induction fuel with
  | zero => intro i j out; rfl
  | succ fuel ih =>
    intro i j out
    rw [rleGoChecked, rleGo]
    by_cases hij : i < input.length ∧ j < out.length
    · rw [if_pos hij, if_pos hij]
      have hi : i < input.length := hij.1
      by_cases h4 : i + 4 ≤ input.length
      · rw [if_pos h4]
        have hi1 : i + 1 < input.length := by omega
        have hi2 : i + 2 < input.length := by omega
        have hi3 : i + 3 < input.length := by omega
        rw [List.getElem?_eq_getElem hi, List.getElem?_eq_getElem hi1]
        by_cases hmk : input[i] = 237 ∧ input[i + 1] = 237
        · have hcond : i + 4 ≤ input.length ∧ input.getD i 0 = 237 ∧
              input.getD (i + 1) 0 = 237 := by
            refine ⟨h4, ?_, ?_⟩
            · rw [List.getD_eq_getElem input 0 hi]; exact hmk.1
            · rw [List.getD_eq_getElem input 0 hi1]; exact hmk.2
          rw [if_pos hcond]
          show (if input[i] = 237 ∧ input[i + 1] = 237 then _ else _) = _
          rw [if_pos hmk]
          rw [List.getElem?_eq_getElem hi2, List.getElem?_eq_getElem hi3]
          show rleGoChecked input fuel (i + 4) _ _ = _
          rw [List.getD_eq_getElem input 0 hi2, List.getD_eq_getElem input 0 hi3]
          exact ih (i + 4) _ _
        · have hcond : ¬(i + 4 ≤ input.length ∧ input.getD i 0 = 237 ∧
              input.getD (i + 1) 0 = 237) := by
            intro hc
            refine hmk ⟨?_, ?_⟩
            · rw [← List.getD_eq_getElem input 0 hi]; exact hc.2.1
            · rw [← List.getD_eq_getElem input 0 hi1]; exact hc.2.2
          rw [if_neg hcond]
          show (if input[i] = 237 ∧ input[i + 1] = 237 then _ else _) = _
          rw [if_neg hmk, if_pos hij.2]
          rw [← List.getD_eq_getElem input 0 hi]
          exact ih (i + 1) (j + 1) _
      · rw [if_neg h4]
        have hcond : ¬(i + 4 ≤ input.length ∧ input.getD i 0 = 237 ∧
            input.getD (i + 1) 0 = 237) := fun hc => h4 hc.1
        rw [if_neg hcond]
        rw [List.getElem?_eq_getElem hi]
        show (if j < out.length then _ else _) = _
        rw [if_pos hij.2]
        rw [← List.getD_eq_getElem input 0 hi]
        exact ih (i + 1) (j + 1) _
    · rw [if_neg hij, if_neg hij]

/-- C5 theorem: the RLE decoder writes exactly the left-to-right expansion of
the input (markers `ED ED cnt val` expanded, other bytes verbatim, truncated
trailing markers copied), truncated to the output capacity, leaving the rest
of the output buffer untouched; and the two concrete examples behave as the
specification states. -/
theorem rle_codec_matches_spec :
    (∀ input output : List Nat,
      decompress_z80_block input output =
        (rleSpecExpand input).take output.length ++
          output.drop (rleSpecExpand input).length) ∧
    decompress_z80_block [237, 237, 5, 65] (List.replicate 5 0) = List.replicate 5 65 ∧
    decompress_z80_block [1, 2, 3] [0, 0, 0] = [1, 2, 3] := by
  refine ⟨?_, by decide, by decide⟩
  intro input output
  unfold decompress_z80_block
  rw [rleGo_spec input input.length 0 0 output (by omega) (by omega)]
  simp

/-- C10 theorem: the RLE decoder is total and memory-safe — the fully
bounds-checked instrumentation of its loop never reports an out-of-range
access and always succeeds with the same result, and the output buffer
length is preserved (no write ever lands outside the buffer). -/
theorem rle_decoder_safe_and_total :
    (∀ input output : List Nat,
      rleGoChecked input input.length 0 0 output = some (decompress_z80_block input output)) ∧
    (∀ input output : List Nat,
      (decompress_z80_block input output).length = output.length) := by
  constructor
  · intro input output
    exact rleGoChecked_eq input input.length 0 0 output
  · intro input output
    exact rleGo_length input input.length 0 0 output

/-! ## Container lemmas -/

lemma footerBytes_length (a b c d : Nat) : (footerBytes a b c d).length = 20 := rfl

lemma readFooter_append (A : List Nat) (a b c d : Nat) :
    readFooter (A ++ footerBytes a b c d) =
      ⟨[90, 88, 78, 68], a % 4294967296, b % 4294967296, c % 4294967296, d % 4294967296⟩ := by
  have hlen : (A ++ footerBytes a b c d).length = A.length + 20 := by
    simp [List.length_append, footerBytes_length]
  have hdrop : (A ++ footerBytes a b c d).drop ((A ++ footerBytes a b c d).length - 20) =
      footerBytes a b c d := by
    rw [hlen, Nat.add_sub_cancel, List.drop_left]
  have ha : readU32 (footerBytes a b c d) 4 = a % 4294967296 := by
    show a % 256 + 256 * (a / 256 % 256) + 65536 * (a / 65536 % 256) +
      16777216 * (a / 16777216 % 256) = a % 4294967296
    omega
  have hb : readU32 (footerBytes a b c d) 8 = b % 4294967296 := by
    show b % 256 + 256 * (b / 256 % 256) + 65536 * (b / 65536 % 256) +
      16777216 * (b / 16777216 % 256) = b % 4294967296
    omega
  have hc : readU32 (footerBytes a b c d) 12 = c % 4294967296 := by
    show c % 256 + 256 * (c / 256 % 256) + 65536 * (c / 65536 % 256) +
      16777216 * (c / 16777216 % 256) = c % 4294967296
    omega
  have hd : readU32 (footerBytes a b c d) 16 = d % 4294967296 := by
    show d % 256 + 256 * (d / 256 % 256) + 65536 * (d / 65536 % 256) +
      16777216 * (d / 16777216 % 256) = d % 4294967296
    omega
  unfold readFooter
  rw [hdrop]
  dsimp only
  rw [ha, hb, hc, hd]
  have hm : (footerBytes a b c d).take 4 = [90, 88, 78, 68] := rfl
  rw [hm]

/-- Characterisation of extraction on a file consisting of a body `A` followed
by a well-formed trailer whose declared sizes fit inside `A`: extraction
always succeeds, and each resource is decompressed from its computed backward
slice of `A`. -/
lemma extractResources_append_footer (dec : List Nat → Option (List Nat)) (A : List Nat)
    (ss shs ps cs : Nat)
    (hss : ss < 4294967296) (hshs : shs < 4294967296)
    (hps : ps < 4294967296) (hcs : cs < 4294967296)
    (hfit : cs + ps + shs + ss ≤ A.length) :
    extractResources dec (A ++ footerBytes ss shs ps cs) =
      Except.ok
        ⟨(dec ((A.drop (A.length - cs - ps - shs - ss)).take ss)).getD [],
         if 0 < shs then dec ((A.drop (A.length - cs - ps - shs)).take shs) else none,
         if 0 < ps then dec ((A.drop (A.length - cs - ps)).take ps) else none,
         if 0 < cs then dec ((A.drop (A.length - cs)).take cs) else none⟩ := by
  have hlen : (A ++ footerBytes ss shs ps cs).length = A.length + 20 := by
    simp [List.length_append, footerBytes_length]
  have hdropA : ∀ k, k ≤ A.length →
      (A ++ footerBytes ss shs ps cs).drop k = A.drop k ++ footerBytes ss shs ps cs := by
    intro k hk
    rw [List.drop_append_eq_append_drop, Nat.sub_eq_zero_of_le hk, List.drop_zero]
  have hslice : ∀ k s, k + s ≤ A.length →
      ((A ++ footerBytes ss shs ps cs).drop k).take s = (A.drop k).take s := by
    intro k s hks
    rw [hdropA k (by omega), List.take_append_of_le_length]
    simp [List.length_drop]
    omega
  unfold extractResources
  rw [readFooter_append]
  dsimp only
  rw [Nat.mod_eq_of_lt hss, Nat.mod_eq_of_lt hshs, Nat.mod_eq_of_lt hps, Nat.mod_eq_of_lt hcs,
    hlen]
  rw [if_neg (by omega), if_neg (by simp), if_neg (by omega)]
  have e1 : A.length + 20 - 20 - cs - ps - shs - ss = A.length - cs - ps - shs - ss := by omega
  have e2 : A.length + 20 - 20 - cs - ps - shs = A.length - cs - ps - shs := by omega
  have e3 : A.length + 20 - 20 - cs - ps = A.length - cs - ps := by omega
  have e4 : A.length + 20 - 20 - cs = A.length - cs := by omega
  rw [e1, e2, e3, e4]
  rw [hslice _ _ (by omega), hslice _ _ (by omega), hslice _ _ (by omega),
    hslice _ _ (by omega)]

/-- C1 round-trip theorem. -/
theorem bundle_extract_roundtrip (compress : List Nat → List Nat)
    (dec : List Nat → Option (List Nat)) (runner S shader pokes config : List Nat)
    (hS : 0 < S.length)
    (hrt : dec (compress S) = some S)
    (h1 : (compress S).length < 4294967296)
    (h2 : (compress shader).length < 4294967296)
    (h3 : (compress pokes).length < 4294967296)
    (h4 : (compress config).length < 4294967296) :
    (extractResources dec (bundleOutput compress runner S shader pokes config)).map
      Resources.snapshot = Except.ok S := by
  unfold bundleOutput
  set cs := compress S with hcs
  set csh := if shader.isEmpty then ([] : List Nat) else compress shader with hcsh
  set cpk := if pokes.isEmpty then ([] : List Nat) else compress pokes with hcpk
  set ccf := if config.isEmpty then ([] : List Nat) else compress config with hccf
  have hsh : csh.length < 4294967296 := by
    rw [hcsh]; split <;> simp_all
  have hpk : cpk.length < 4294967296 := by
    rw [hcpk]; split <;> simp_all
  have hcf : ccf.length < 4294967296 := by
    rw [hccf]; split <;> simp_all
  have hA : runner ++ cs ++ csh ++ cpk ++ ccf ++
      footerBytes (cs.length % 4294967296) (csh.length % 4294967296)
        (cpk.length % 4294967296) (ccf.length % 4294967296) =
      (runner ++ cs ++ csh ++ cpk ++ ccf) ++
      footerBytes (cs.length % 4294967296) (csh.length % 4294967296)
        (cpk.length % 4294967296) (ccf.length % 4294967296) := rfl
  rw [hA]
  rw [Nat.mod_eq_of_lt h1, Nat.mod_eq_of_lt hsh, Nat.mod_eq_of_lt hpk, Nat.mod_eq_of_lt hcf]
  set A := runner ++ cs ++ csh ++ cpk ++ ccf with hAdef
  have hAlen : A.length = runner.length + cs.length + csh.length + cpk.length + ccf.length := by
    simp [hAdef, List.length_append]
    omega
  rw [extractResources_append_footer dec A cs.length csh.length cpk.length ccf.length h1 hsh
    hpk hcf (by omega)]
  have hoff : A.length - ccf.length - cpk.length - csh.length - cs.length = runner.length := by
    omega
  have hdrop : A.drop runner.length = cs ++ csh ++ cpk ++ ccf := by
    rw [hAdef]
    have : runner ++ cs ++ csh ++ cpk ++ ccf = runner ++ (cs ++ csh ++ cpk ++ ccf) := by
      simp [List.append_assoc]
    rw [this, List.drop_left]
  have htake : (cs ++ csh ++ cpk ++ ccf).take cs.length = cs := by
    have : cs ++ csh ++ cpk ++ ccf = cs ++ (csh ++ cpk ++ ccf) := by simp [List.append_assoc]
    rw [this, List.take_append_of_le_length (by omega), List.take_length]
  simp only [hoff, hdrop, htake, hrt]
  rfl

/-- Witness for the C1 round-trip at a concrete bundle (identity codec,
runner [9, 9], snapshot [1, 2, 3], no optional resources). -/
theorem bundle_extract_roundtrip_witness :
    0 < ([1, 2, 3] : List Nat).length ∧
    (extractResources some (bundleOutput (fun bs => bs) [9, 9] [1, 2, 3] [] [] [])).map
      Resources.snapshot = Except.ok [1, 2, 3] :=
  ⟨by decide,
   bundle_extract_roundtrip (fun bs => bs) some [9, 9] [1, 2, 3] [] [] []
     (by decide) rfl (by decide) (by decide) (by decide) (by decide)⟩

/-- C4 counterexample: the snapshot resource of `c4File` fails to decompress,
yet extraction succeeds (no error is signalled for that load attempt) and
simply reports an empty snapshot. -/
theorem snapshot_decompression_failure_not_fatal_cex :
    failDec ((c4File.drop 0).take 1) = none ∧
    extractResources failDec c4File = Except.ok ⟨[], none, none, none⟩ := by
  exact ⟨rfl, rfl⟩

/-- C4 amended theorem: for a file with a valid trailer whose sizes fit, no
decompression failure aborts extraction; a failing snapshot is recovered as
the empty buffer and a failing optional resource as absent. -/
theorem decompression_failure_recovered (dec : List Nat → Option (List Nat)) (A : List Nat)
    (ss shs ps cs : Nat)
    (hss : ss < 4294967296) (hshs : shs < 4294967296)
    (hps : ps < 4294967296) (hcs : cs < 4294967296)
    (hfit : cs + ps + shs + ss ≤ A.length) :
    (extractResources dec (A ++ footerBytes ss shs ps cs)).isOk = true ∧
    (dec ((A.drop (A.length - cs - ps - shs - ss)).take ss) = none →
      (extractResources dec (A ++ footerBytes ss shs ps cs)).map Resources.snapshot =
        Except.ok []) ∧
    (dec ((A.drop (A.length - cs - ps - shs)).take shs) = none →
      (extractResources dec (A ++ footerBytes ss shs ps cs)).map Resources.shader =
        Except.ok none) ∧
    (dec ((A.drop (A.length - cs - ps)).take ps) = none →
      (extractResources dec (A ++ footerBytes ss shs ps cs)).map Resources.pokes =
        Except.ok none) ∧
    (dec ((A.drop (A.length - cs)).take cs) = none →
      (extractResources dec (A ++ footerBytes ss shs ps cs)).map Resources.config =
        Except.ok none) := by
  rw [extractResources_append_footer dec A ss shs ps cs hss hshs hps hcs hfit]
  refine ⟨rfl, ?_, ?_, ?_, ?_⟩
  · intro h; simp [Except.map, h]
  · intro h; simp [Except.map, h]
  · intro h; simp [Except.map, h]
  · intro h; simp [Except.map, h]

/-- Witness for the amended C4 at a concrete file whose snapshot resource
fails to decompress: extraction still succeeds. -/
theorem decompression_failure_recovered_witness :
    (1 : Nat) < 4294967296 ∧
    (extractResources failDec ([1] ++ footerBytes 1 0 0 0)).isOk = true :=
  ⟨by decide,
   (decompression_failure_recovered failDec [1] 1 0 0 0 (by decide) (by decide) (by decide)
     (by decide) (by decide)).1⟩

/-- C6 theorem: a file shorter than the 20-byte trailer, or whose trailing
magic is not "ZXND", yields zero embedded resources and no error. -/
theorem no_trailer_means_no_resources (dec : List Nat → Option (List Nat)) (file : List Nat)
    (h : ¬(20 ≤ file.length ∧ (readFooter file).magic = [90, 88, 78, 68])) :
    extractResources dec file = Except.ok ⟨[], none, none, none⟩ := by
  unfold extractResources
  by_cases hlen : file.length < 20
  · rw [if_pos hlen]
  · rw [if_neg hlen]
    have hmagic : (readFooter file).magic ≠ [90, 88, 78, 68] := by
      intro hm
      exact h ⟨by omega, hm⟩
    rw [if_pos hmagic]

/-! ## Poke-list parser lemmas -/

lemma parseBounded_lt (bound : Nat) (s : List Char) (n : Nat)
    (h : parseBounded bound s = some n) : n < bound := by
  unfold parseBounded at h
  split at h <;> dsimp only at h <;>
    · split at h
      · simp at h
      · split at h
        · split at h
          · simp only [Option.some.injEq] at h
            omega
          · simp at h
        · simp at h

lemma pokes_foldl_eq_filterMap (lines : List (List Char)) : ∀ acc : List PokeEntry,
    lines.foldl
      (fun acc line =>
        match pokeLine line with
        | some entry => acc ++ [entry]
        | none => acc) acc = acc ++ lines.filterMap pokeLine := by
  induction lines with
  | nil => intro acc; simp
  | cons line rest ih =>
    intro acc
    rw [List.foldl_cons, List.filterMap_cons]
    cases h : pokeLine line with
    | none => simp only [h, ih]
    | some entry => simp only [h, ih, List.append_assoc, List.singleton_append]

lemma pokeLine_bounds (line : List Char) (entry : PokeEntry)
    (h : pokeLine line = some entry) :
    entry.addr < 65536 ∧ entry.value < 256 ∧ entry.original < 256 := by
  unfold pokeLine at h
  dsimp only at h
  split at h
  · split at h
    · rename_i a v o ha hv ho
      simp only [Option.some.injEq] at h
      subst h
      exact ⟨parseBounded_lt _ _ _ ha, parseBounded_lt _ _ _ hv, parseBounded_lt _ _ _ ho⟩
    · simp at h
  · simp at h

/-- C9 theorem: parse_pokes_content yields exactly one entry per line that
qualifies (at least 5 whitespace-separated fields, first field "M" or "Z",
fields 2, 3, 4 parsing as u16/u8/u8) and nothing for any other line; every
entry is in range; and the two concrete example lines behave as stated. -/
theorem parse_pokes_content_characterisation :
    (∀ content : List Char,
      parse_pokes_content content = (rustSplitLines content).filterMap pokeLine) ∧
    (∀ (content : List Char) (entry : PokeEntry), entry ∈ parse_pokes_content content →
      entry.addr < 65536 ∧ entry.value < 256 ∧ entry.original < 256) ∧
    parse_pokes_content ("M 0 32768 201 62".data) = [⟨32768, 201, 62⟩] ∧
    parse_pokes_content ("X 1 2 3".data) = [] := by
  have hchar : ∀ content : List Char,
      parse_pokes_content content = (rustSplitLines content).filterMap pokeLine := by
    intro content
    unfold parse_pokes_content
    rw [pokes_foldl_eq_filterMap]
    simp
  refine ⟨hchar, ?_, by decide, by decide⟩
  intro content entry hmem
  rw [hchar] at hmem
  obtain ⟨line, _, hline⟩ := List.mem_filterMap.mp hmem
  exact pokeLine_bounds line entry hline

/-- Witness for C6 at a concrete 3-byte file (too short for any trailer). -/
theorem no_trailer_means_no_resources_witness :
    ¬(20 ≤ ([1, 2, 3] : List Nat).length ∧ (readFooter [1, 2, 3]).magic = [90, 88, 78, 68]) ∧
    extractResources some [1, 2, 3] = Except.ok ⟨[], none, none, none⟩ :=
  ⟨by decide, no_trailer_means_no_resources some [1, 2, 3] (by decide)⟩


/-! ## Snapshot-decoder lemmas and claims C2, C3, C7, C8 -/

lemma set_drop_comm (l : List Nat) (n k v : Nat) :
    (l.set (n + k) v).drop n = (l.drop n).set k v := by
  induction n generalizing l with
  | zero => simp
  | succ n ih =>
    match l with
    | [] => simp
    | a :: t =>
      have e : n + 1 + k = n + k + 1 := by omega
      rw [e]
      have e2 : (a :: t).set (n + k + 1) v = a :: t.set (n + k) v := rfl
      rw [e2]
      show (t.set (n + k) v).drop n = (t.drop n).set k v
      exact ih t

lemma banksGood_getD (banks : List (List Nat)) (hg : BanksGood banks) (i : Nat) (hi : i < 8) :
    (banks.getD i []).length = 16384 := by
  obtain ⟨hlen, hall⟩ := hg
  have hi' : i < banks.length := by omega
  rw [List.getD_eq_getElem _ _ hi']
  exact hall _ (List.getElem_mem hi')

lemma banksGood_set (banks : List (List Nat)) (hg : BanksGood banks) (i : Nat)
    (b : List Nat) (hb : b.length = 16384) : BanksGood (banks.set i b) := by
  obtain ⟨hlen, hall⟩ := hg
  refine ⟨by rw [List.length_set]; exact hlen, ?_⟩
  intro x hx
  rcases List.mem_or_eq_of_mem_set hx with hx' | hx'
  · exact hall x hx'
  · rw [hx']; exact hb

lemma zeroBanks_good : BanksGood zeroBanks := by
  constructor
  · rfl
  · intro b hb
    rw [List.eq_of_mem_replicate hb]
    exact List.length_replicate 16384 0

lemma z80Build48_parts (p : Z80Pre) (banks : List (List Nat)) (hg : BanksGood banks) :
    (z80Build48 p banks).length = 49179 ∧
    (z80Build48 p banks).take 27 =
      [p.i, p.lAlt, p.hAlt, p.eAlt, p.dAlt, p.cAlt, p.bAlt, p.fAlt, p.aAlt,
       p.l, p.h, p.e, p.d, p.c, p.b, p.iyLow, p.iyHigh, p.ixLow, p.ixHigh,
       p.iff2 / 4 % 2 + 2, p.r % 128 + p.byte12 % 2 * 128, p.f, p.a,
       (z80Sp p + 65534) % 65536 % 256, (z80Sp p + 65534) % 65536 / 256 % 256,
       p.byte29 % 4, p.byte12 / 2 % 8] ∧
    (z80Build48 p banks).drop 27 =
      (if 16384 ≤ (z80Sp p + 65534) % 65536 ∧ (z80Sp p + 65534) % 65536 ≤ 65534 then
        ((banks.getD 5 [] ++ banks.getD 2 [] ++ banks.getD 0 []).set
            ((z80Sp p + 65534) % 65536 - 16384) (p.pcReal % 256)).set
          ((z80Sp p + 65534) % 65536 - 16384 + 1) (p.pcReal / 256 % 256)
      else banks.getD 5 [] ++ banks.getD 2 [] ++ banks.getD 0 []) := by
  have hb5 : (banks.getD 5 []).length = 16384 := banksGood_getD banks hg 5 (by omega)
  have hb2 : (banks.getD 2 []).length = 16384 := banksGood_getD banks hg 2 (by omega)
  have hb0 : (banks.getD 0 []).length = 16384 := banksGood_getD banks hg 0 (by omega)
  have hhdr : (snaHeaderZ80 p).length = 27 := rfl
  set nsp := (z80Sp p + 65534) % 65536 with hnsp
  set ram := banks.getD 5 [] ++ banks.getD 2 [] ++ banks.getD 0 [] with hram
  have hramlen : ram.length = 49152 := by
    rw [hram]
    simp only [List.length_append]
    omega
  have hsna0 : snaHeaderZ80 p ++ banks.getD 5 [] ++ banks.getD 2 [] ++ banks.getD 0 [] =
      snaHeaderZ80 p ++ ram := by
    rw [hram]
    simp [List.append_assoc]
  have hsna0len : (snaHeaderZ80 p ++ ram).length = 49179 := by
    simp only [List.length_append, hhdr, hramlen]
  set sna1 := (((snaHeaderZ80 p ++ ram).set 23 (nsp % 256)).set 24 (nsp / 256 % 256))
    with hsna1
  have hsna1len : sna1.length = 49179 := by
    rw [hsna1, List.length_set, List.length_set, hsna0len]
  have hsna1take : sna1.take 27 =
      [p.i, p.lAlt, p.hAlt, p.eAlt, p.dAlt, p.cAlt, p.bAlt, p.fAlt, p.aAlt,
       p.l, p.h, p.e, p.d, p.c, p.b, p.iyLow, p.iyHigh, p.ixLow, p.ixHigh,
       p.iff2 / 4 % 2 + 2, p.r % 128 + p.byte12 % 2 * 128, p.f, p.a,
       nsp % 256, nsp / 256 % 256, p.byte29 % 4, p.byte12 / 2 % 8] := by
    rw [hsna1, List.set_take, List.set_take]
    rw [List.take_append_of_le_length (by omega)]
    show ((snaHeaderZ80 p).set 23 (nsp % 256)).set 24 (nsp / 256 % 256) = _
    rfl
  have hsna1drop : sna1.drop 27 = ram := by
    rw [hsna1, List.drop_set_of_lt _ _ (by omega), List.drop_set_of_lt _ _ (by omega)]
    exact List.drop_left' hhdr
  unfold z80Build48
  rw [hsna0]
  dsimp only
  rw [← hsna1, hsna1len]
  by_cases h16 : 16384 ≤ nsp
  · by_cases h65 : nsp ≤ 65534
    · rw [if_pos h16, if_pos (by omega), if_pos ⟨h16, h65⟩]
      have hoff1 : 27 + (nsp - 16384) + 1 = 27 + (nsp - 16384 + 1) := by omega
      refine ⟨?_, ?_, ?_⟩
      · rw [List.length_set, List.length_set, hsna1len]
      · rw [List.set_take, List.set_take]
        rw [List.set_eq_of_length_le (by rw [List.length_set, List.length_take]; omega)]
        rw [List.set_eq_of_length_le (by rw [List.length_take]; omega)]
        exact hsna1take
      · rw [hoff1, set_drop_comm, set_drop_comm, hsna1drop]
    · rw [if_pos h16, if_neg (by omega), if_neg (by omega)]
      exact ⟨hsna1len, hsna1take, hsna1drop⟩
  · rw [if_neg h16, if_neg (by omega)]
    exact ⟨hsna1len, hsna1take, hsna1drop⟩

lemma pageToBank_lt (hw page bi : Nat) (h : pageToBank hw page = some bi) : bi < 8 := by
  unfold pageToBank at h
  split at h
  · split at h
    · simp only [Option.some.injEq] at h; omega
    · split at h
      · simp only [Option.some.injEq] at h; omega
      · split at h
        · simp only [Option.some.injEq] at h; omega
        · simp at h
  · split at h
    · simp only [Option.some.injEq] at h
      rename_i hp
      omega
    · simp at h

lemma decompress_length (input output : List Nat) :
    (decompress_z80_block input output).length = output.length :=
  rleGo_length input input.length 0 0 output

lemma z80LoadBlocks_good (input : List Nat) (hw : Nat) : ∀ (fuel pos : Nat)
    (banks bs : List (List Nat)), BanksGood banks →
    z80LoadBlocks input hw fuel pos banks = Except.ok bs → BanksGood bs := by
  intro fuel
  induction fuel with
  | zero =>
    intro pos banks bs hg h
    simp only [z80LoadBlocks, Except.ok.injEq] at h
    rw [← h]; exact hg
  | succ fuel ih =>
    intro pos banks bs hg h
    rw [z80LoadBlocks] at h
    by_cases hpos : pos < input.length
    · rw [if_pos hpos] at h
      by_cases h3 : input.length < pos + 3
      · rw [if_pos h3] at h
        simp at h
      · rw [if_neg h3] at h
        dsimp only at h
        by_cases hffff : input.getD pos 0 + 256 * input.getD (pos + 1) 0 = 65535
        · simp only [if_pos hffff] at h
          by_cases hend : input.length < pos + 3 + 16384
          · rw [if_pos hend] at h
            simp only [Except.ok.injEq] at h
            rw [← h]; exact hg
          · rw [if_neg hend] at h
            cases hbi : pageToBank hw (input.getD (pos + 2) 0) with
            | none =>
              simp only [hbi] at h
              exact ih _ _ _ hg h
            | some bi =>
              simp only [hbi] at h
              refine ih _ _ _ (banksGood_set banks hg bi _ ?_) h
              rw [List.length_take, List.length_drop]
              omega
        · simp only [if_neg hffff] at h
          by_cases hend : input.length <
              pos + 3 + (input.getD pos 0 + 256 * input.getD (pos + 1) 0)
          · rw [if_pos hend] at h
            simp only [Except.ok.injEq] at h
            rw [← h]; exact hg
          · rw [if_neg hend] at h
            cases hbi : pageToBank hw (input.getD (pos + 2) 0) with
            | none =>
              simp only [hbi] at h
              exact ih _ _ _ hg h
            | some bi =>
              simp only [hbi] at h
              have hbi8 : bi < 8 := pageToBank_lt hw _ bi hbi
              refine ih _ _ _ (banksGood_set banks hg bi _ ?_) h
              rw [decompress_length]
              exact banksGood_getD banks hg bi hbi8
    · rw [if_neg hpos] at h
      simp only [Except.ok.injEq] at h
      rw [← h]; exact hg

lemma z80BanksV1_good (input : List Nat) (p : Z80Pre) : BanksGood (z80BanksV1 input p) := by
  unfold z80BanksV1
  dsimp only
  set ram := (if p.byte12 / 32 % 2 = 1 then
      decompress_z80_block (input.drop p.bodyPos) (List.replicate 49152 0)
    else copyIntoBuffer (input.drop p.bodyPos) (List.replicate 49152 0)) with hramdef
  have hramlen : ram.length = 49152 := by
    rw [hramdef]
    split
    · rw [decompress_length]
      exact List.length_replicate 49152 0
    · unfold copyIntoBuffer
      dsimp only
      simp only [List.length_append, List.length_take, List.length_drop,
        List.length_replicate]
      omega
  refine banksGood_set _ (banksGood_set _ (banksGood_set _ zeroBanks_good 5 _ ?_) 2 _ ?_) 0 _ ?_
  · rw [List.length_take]; omega
  · rw [List.length_take, List.length_drop]; omega
  · rw [List.length_take, List.length_drop]; omega

lemma z80Banks_good (input : List Nat) (p : Z80Pre) (bs : List (List Nat))
    (h : z80Banks input p = Except.ok bs) : BanksGood bs := by
  unfold z80Banks at h
  split at h
  · simp only [Except.ok.injEq] at h
    rw [← h]
    exact z80BanksV1_good input p
  · exact z80LoadBlocks_good input p.hardwareMode input.length p.bodyPos zeroBanks bs
      zeroBanks_good h

lemma convert_z80_ok (input : List Nat) (p : Z80Pre) (banks : List (List Nat))
    (hp : parseZ80Prelude input = Except.ok p) (hb : z80Banks input p = Except.ok banks) :
    convert_z80_to_sna input =
      (if p.machine = ZXMachine.Sinclair48K then
        Except.ok (z80Build48 p banks, p.machine)
      else Except.ok (z80Build128 p banks, p.machine)) := by
  unfold convert_z80_to_sna
  simp only [hp, hb]

lemma parseZ80_fields (input : List Nat) (p : Z80Pre)
    (hp : parseZ80Prelude input = Except.ok p) (hpc : p.pcField = 0) :
    p.version = (if p.headerLen = 23 then 2
      else if p.headerLen = 54 ∨ p.headerLen = 55 then 3 else 1) := by
  unfold parseZ80Prelude at hp
  split at hp
  · simp at hp
  · dsimp only at hp
    split at hp
    · repeat' split at hp
      all_goals try simp at hp
      all_goals rw [← hp]
      all_goals simp_all
    · simp only [Except.ok.injEq] at hp
      rw [← hp] at hpc
      rename_i hpcne
      exact absurd hpc hpcne

lemma drop_append_big (l1 l2 : List Nat) (n : Nat) (h : l1.length ≤ n) :
    (l1 ++ l2).drop n = l2.drop (n - l1.length) := by
  rw [List.drop_append_eq_append_drop, List.drop_eq_nil_of_le h, List.nil_append]

lemma sum_map_const (l : List Nat) (c : Nat) : (l.map fun _ => c).sum = c * l.length := by
  induction l with
  | nil => simp
  | cons a t ih =>
    simp only [List.map_cons, List.sum_cons, ih, List.length_cons]
    ring

lemma filter_not52_length (act : Nat) (hlt : act < 8) (h2 : act ≠ 2) (h5 : act ≠ 5) :
    ((List.range 8).filter fun k => decide (¬(k = 5 ∨ k = 2 ∨ k = act))).length = 5 := by
  interval_cases act <;> first
    | exact absurd rfl h2
    | exact absurd rfl h5
    | decide

lemma remainingBanks_length (banks : List (List Nat)) (act : Nat) (hg : BanksGood banks) :
    (remainingBanks banks act).length =
      16384 * ((List.range 8).filter fun k => decide (¬(k = 5 ∨ k = 2 ∨ k = act))).length := by
  unfold remainingBanks
  rw [List.length_flatten, List.map_map]
  have hc : ∀ k ∈ (List.range 8).filter fun k => decide (¬(k = 5 ∨ k = 2 ∨ k = act)),
      (List.length ∘ fun k => banks.getD k []) k = (fun _ => 16384) k := by
    intro k hk
    have hk8 : k < 8 := by
      have hm := (List.mem_filter.mp hk).1
      simpa [List.mem_range] using hm
    exact banksGood_getD banks hg k hk8
  rw [List.map_congr_left hc, sum_map_const]

lemma z80Build128_parts (p : Z80Pre) (banks : List (List Nat)) (hg : BanksGood banks)
    (h2 : p.port7ffd % 8 ≠ 2) (h5 : p.port7ffd % 8 ≠ 5) :
    (z80Build128 p banks).length = 131103 ∧
    (z80Build128 p banks).take 27 =
      [p.i, p.lAlt, p.hAlt, p.eAlt, p.dAlt, p.cAlt, p.bAlt, p.fAlt, p.aAlt,
       p.l, p.h, p.e, p.d, p.c, p.b, p.iyLow, p.iyHigh, p.ixLow, p.ixHigh,
       p.iff2 / 4 % 2 + 2, p.r % 128 + p.byte12 % 2 * 128, p.f, p.a,
       p.spLow, p.spHigh, p.byte29 % 4, p.byte12 / 2 % 8] ∧
    ((z80Build128 p banks).drop 27).take 16384 = banks.getD 5 [] ∧
    ((z80Build128 p banks).drop 16411).take 16384 = banks.getD 2 [] ∧
    ((z80Build128 p banks).drop 32795).take 16384 = banks.getD (p.port7ffd % 8) [] ∧
    ((z80Build128 p banks).drop 49179).take 4 =
      [p.pcReal % 256, p.pcReal / 256 % 256, p.port7ffd, 0] ∧
    (z80Build128 p banks).drop 49183 = remainingBanks banks (p.port7ffd % 8) ∧
    ((List.range 8).filter fun k => decide (¬(k = 5 ∨ k = 2 ∨ k = p.port7ffd % 8))).length
      = 5 := by
  have hact : p.port7ffd % 8 < 8 := by omega
  have hb5 : (banks.getD 5 []).length = 16384 := banksGood_getD banks hg 5 (by omega)
  have hb2 : (banks.getD 2 []).length = 16384 := banksGood_getD banks hg 2 (by omega)
  have hba : (banks.getD (p.port7ffd % 8) []).length = 16384 :=
    banksGood_getD banks hg _ hact
  have hhdr : (snaHeaderZ80 p).length = 27 := rfl
  have hflen : ((List.range 8).filter fun k =>
      decide (¬(k = 5 ∨ k = 2 ∨ k = p.port7ffd % 8))).length = 5 :=
    filter_not52_length _ hact h2 h5
  have hrem : (remainingBanks banks (p.port7ffd % 8)).length = 81920 := by
    rw [remainingBanks_length banks _ hg, hflen]
  have hshape : z80Build128 p banks = snaHeaderZ80 p ++ (banks.getD 5 [] ++
      (banks.getD 2 [] ++ (banks.getD (p.port7ffd % 8) [] ++
        ([p.pcReal % 256, p.pcReal / 256 % 256, p.port7ffd, 0] ++
          remainingBanks banks (p.port7ffd % 8))))) := by
    unfold z80Build128
    dsimp only
    simp [List.append_assoc]
  rw [hshape]
  refine ⟨?_, ?_, ?_, ?_, ?_, ?_, ?_, hflen⟩
  · simp only [List.length_append, hhdr, hb5, hb2, hba, hrem, List.length_cons,
      List.length_nil]
  · rw [List.take_append_of_le_length (by omega)]
    rfl
  · rw [List.drop_left' hhdr, List.take_append_of_le_length (by omega),
      List.take_of_length_le (by omega)]
  · rw [drop_append_big _ _ _ (by omega), hhdr]
    rw [drop_append_big _ _ _ (by omega), hb5]
    show (banks.getD 2 [] ++ _).take 16384 = _
    rw [List.take_append_of_le_length (by omega), List.take_of_length_le (by omega)]
  · rw [drop_append_big _ _ _ (by omega), hhdr]
    rw [drop_append_big _ _ _ (by omega), hb5]
    rw [drop_append_big _ _ _ (by omega), hb2]
    show (banks.getD (p.port7ffd % 8) [] ++ _).take 16384 = _
    rw [List.take_append_of_le_length (by omega), List.take_of_length_le (by omega)]
  · rw [drop_append_big _ _ _ (by omega), hhdr]
    rw [drop_append_big _ _ _ (by omega), hb5]
    rw [drop_append_big _ _ _ (by omega), hb2]
    rw [drop_append_big _ _ _ (by omega), hba]
    show ([p.pcReal % 256, p.pcReal / 256 % 256, p.port7ffd, 0] ++ _).take 4 = _
    rw [List.take_append_of_le_length (by simp)]
    rfl
  · rw [drop_append_big _ _ _ (by omega), hhdr]
    rw [drop_append_big _ _ _ (by omega), hb5]
    rw [drop_append_big _ _ _ (by omega), hb2]
    rw [drop_append_big _ _ _ (by omega), hba]
    rw [drop_append_big _ _ _ (by simp)]
    show (remainingBanks banks (p.port7ffd % 8)).drop 0 = _
    rw [List.drop_zero]

lemma pagesGood_nil : PagesGood [] := by
  intro e he
  simp at he

lemma pagesGood_insert (pages : List (Nat × List Nat)) (hp : PagesGood pages)
    (k : Nat) (v : List Nat) (hv : v.length = 16384) : PagesGood (mapInsert pages k v) := by
  intro e he
  rcases List.mem_cons.mp he with he' | he'
  · rw [he']; exact hv
  · exact hp e he'

lemma mapGet_good (pages : List (Nat × List Nat)) (hp : PagesGood pages) (k : Nat)
    (pg : List Nat) (h : mapGet pages k = some pg) : pg.length = 16384 := by
  unfold mapGet at h
  cases hf : pages.find? fun entry => entry.1 == k with
  | none => rw [hf] at h; simp at h
  | some e =>
    rw [hf] at h
    simp at h
    rw [← h]
    exact hp e (List.mem_of_find?_eq_some hf)

lemma szxChunks_pagesGood (dec : List Nat → Option (List Nat)) (input : List Nat) :
    ∀ (fuel pos : Nat) (st st' : SzxState), PagesGood st.pages →
    szxChunks dec input fuel pos st = Except.ok st' → PagesGood st'.pages := by
  intro fuel
  induction fuel with
  | zero =>
    intro pos st st' hp h
    rw [szxChunks] at h
    simp only [Except.ok.injEq] at h
    rw [← h]; exact hp
  | succ fuel ih =>
    intro pos st st' hp h
    rw [szxChunks] at h
    by_cases hpos : pos < input.length
    · rw [if_pos hpos] at h
      by_cases h4 : input.length < pos + 4
      · rw [if_pos h4] at h
        simp only [Except.ok.injEq] at h
        rw [← h]; exact hp
      · rw [if_neg h4] at h
        by_cases h8 : input.length < pos + 8
        · rw [if_pos h8] at h
          simp at h
        · rw [if_neg h8] at h
          dsimp only at h
          by_cases hz : (input.drop pos).take 4 = [90, 56, 48, 82]
          · rw [if_pos hz] at h
            by_cases hzr : input.length < pos + 8 + min (readU32 input (pos + 4)) 37
            · rw [if_pos hzr] at h
              simp at h
            · rw [if_neg hzr] at h
              refine ih _ _ _ ?_ h
              exact hp
          · rw [if_neg hz] at h
            by_cases hr : (input.drop pos).take 4 = [82, 65, 77, 80]
            · rw [if_pos hr] at h
              by_cases hs3 : readU32 input (pos + 4) < 3
              · rw [if_pos hs3] at h
                simp at h
              · rw [if_neg hs3] at h
                by_cases hsz : input.length < pos + 8 + readU32 input (pos + 4)
                · rw [if_pos hsz] at h
                  simp at h
                · rw [if_neg hsz] at h
                  by_cases hfl : (input.getD (pos + 8) 0 + 256 * input.getD (pos + 8 + 1) 0)
                      % 2 = 1
                  · rw [if_pos hfl] at h
                    cases hdec : dec ((input.drop (pos + 8 + 3)).take
                        (readU32 input (pos + 4) - 3)) with
                    | none =>
                      simp only [hdec] at h
                      simp at h
                    | some pageData =>
                      simp only [hdec] at h
                      by_cases hlen : pageData.length = 16384
                      · rw [if_pos hlen] at h
                        refine ih _ _ _ ?_ h
                        exact pagesGood_insert st.pages hp _ _ hlen
                      · rw [if_neg hlen] at h
                        refine ih _ _ _ ?_ h
                        exact hp
                  · rw [if_neg hfl] at h
                    by_cases hlen : ((input.drop (pos + 8 + 3)).take
                        (readU32 input (pos + 4) - 3)).length = 16384
                    · rw [if_pos hlen] at h
                      refine ih _ _ _ ?_ h
                      exact pagesGood_insert st.pages hp _ _ hlen
                    · rw [if_neg hlen] at h
                      refine ih _ _ _ ?_ h
                      exact hp
            · rw [if_neg hr] at h
              by_cases hs : (input.drop pos).take 4 = [83, 80, 67, 82]
              · rw [if_pos hs] at h
                by_cases hsp : input.length < pos + 8 + 2
                · rw [if_pos hsp] at h
                  simp at h
                · rw [if_neg hsp] at h
                  refine ih _ _ _ ?_ h
                  exact hp
              · rw [if_neg hs] at h
                refine ih _ _ _ ?_ h
                exact hp
    · rw [if_neg hpos] at h
      simp only [Except.ok.injEq] at h
      rw [← h]; exact hp

lemma szxBuild48_parts (st : SzxState) (p5 p2 p0 : List Nat)
    (h5 : mapGet st.pages 5 = some p5) (h2 : mapGet st.pages 2 = some p2)
    (h0 : mapGet st.pages 0 = some p0)
    (l5 : p5.length = 16384) (l2 : p2.length = 16384) (l0 : p0.length = 16384) :
    ∀ out, szxBuild48 st = Except.ok out →
      out.length = 49179 ∧
      out.take 27 =
        [st.regs.getD 24 0,
         st.regs.getD 14 0, st.regs.getD 15 0, st.regs.getD 12 0, st.regs.getD 13 0,
         st.regs.getD 10 0, st.regs.getD 11 0, st.regs.getD 8 0, st.regs.getD 9 0,
         st.regs.getD 6 0, st.regs.getD 7 0, st.regs.getD 4 0, st.regs.getD 5 0,
         st.regs.getD 2 0, st.regs.getD 3 0, st.regs.getD 18 0, st.regs.getD 19 0,
         st.regs.getD 16 0, st.regs.getD 17 0,
         (if st.regs.getD 27 0 ≠ 0 then 4 else 0) + 2, st.regs.getD 25 0,
         st.regs.getD 0 0, st.regs.getD 1 0,
         ((st.regs.getD 20 0 + 256 * st.regs.getD 21 0 + 65534) % 65536) % 256,
         ((st.regs.getD 20 0 + 256 * st.regs.getD 21 0 + 65534) % 65536) / 256 % 256,
         st.regs.getD 28 0, st.border % 8] ∧
      out.drop 27 =
        (if 16384 ≤ (st.regs.getD 20 0 + 256 * st.regs.getD 21 0 + 65534) % 65536 ∧
            (st.regs.getD 20 0 + 256 * st.regs.getD 21 0 + 65534) % 65536 ≤ 65534 then
          ((p5 ++ p2 ++ p0).set
              ((st.regs.getD 20 0 + 256 * st.regs.getD 21 0 + 65534) % 65536 - 16384)
              (st.regs.getD 22 0)).set
            ((st.regs.getD 20 0 + 256 * st.regs.getD 21 0 + 65534) % 65536 - 16384 + 1)
            (st.regs.getD 23 0)
        else p5 ++ p2 ++ p0) := by
  intro out hout
  unfold szxBuild48 at hout
  simp only [h5, h2, h0] at hout
  set nsp := (st.regs.getD 20 0 + 256 * st.regs.getD 21 0 + 65534) % 65536 with hnsp
  set ram := p5 ++ p2 ++ p0 with hram
  have hramlen : ram.length = 49152 := by
    rw [hram]
    simp only [List.length_append]
    omega
  have hhdr : (snaHeaderSzx st).length = 27 := rfl
  set hdr := ((snaHeaderSzx st).set 23 (nsp % 256)).set 24 (nsp / 256 % 256) with hhdrdef
  have hhdrlen : hdr.length = 27 := by
    rw [hhdrdef, List.length_set, List.length_set, hhdr]
  have hhdrval : hdr =
      [st.regs.getD 24 0,
       st.regs.getD 14 0, st.regs.getD 15 0, st.regs.getD 12 0, st.regs.getD 13 0,
       st.regs.getD 10 0, st.regs.getD 11 0, st.regs.getD 8 0, st.regs.getD 9 0,
       st.regs.getD 6 0, st.regs.getD 7 0, st.regs.getD 4 0, st.regs.getD 5 0,
       st.regs.getD 2 0, st.regs.getD 3 0, st.regs.getD 18 0, st.regs.getD 19 0,
       st.regs.getD 16 0, st.regs.getD 17 0,
       (if st.regs.getD 27 0 ≠ 0 then 4 else 0) + 2, st.regs.getD 25 0,
       st.regs.getD 0 0, st.regs.getD 1 0,
       nsp % 256, nsp / 256 % 256,
       st.regs.getD 28 0, st.border % 8] := by
    rw [hhdrdef]
    rfl
  have hram1 : (if 16384 ≤ nsp then
        if nsp - 16384 + 1 < ram.length then
          (ram.set (nsp - 16384) (st.regs.getD 22 0)).set (nsp - 16384 + 1)
            (st.regs.getD 23 0)
        else ram
      else ram) =
      (if 16384 ≤ nsp ∧ nsp ≤ 65534 then
        (ram.set (nsp - 16384) (st.regs.getD 22 0)).set (nsp - 16384 + 1)
          (st.regs.getD 23 0)
      else ram) := by
    rw [hramlen]
    by_cases ha : 16384 ≤ nsp
    · by_cases hb : nsp ≤ 65534
      · rw [if_pos ha, if_pos (by omega), if_pos ⟨ha, hb⟩]
      · rw [if_pos ha, if_neg (by omega), if_neg (by omega)]
    · rw [if_neg ha, if_neg (by omega)]
  rw [hram1] at hout
  have hout' : out = hdr ++ (if 16384 ≤ nsp ∧ nsp ≤ 65534 then
      (ram.set (nsp - 16384) (st.regs.getD 22 0)).set (nsp - 16384 + 1)
        (st.regs.getD 23 0)
    else ram) := by
    simp only [Except.ok.injEq] at hout
    rw [← hout]
  have hram1len : (if 16384 ≤ nsp ∧ nsp ≤ 65534 then
      (ram.set (nsp - 16384) (st.regs.getD 22 0)).set (nsp - 16384 + 1)
        (st.regs.getD 23 0)
    else ram).length = 49152 := by
    split
    · rw [List.length_set, List.length_set, hramlen]
    · exact hramlen
  refine ⟨?_, ?_, ?_⟩
  · rw [hout', List.length_append, hhdrlen, hram1len]
  · rw [hout', List.take_append_of_le_length (by omega), List.take_of_length_le (by omega),
      hhdrval]
  · rw [hout', List.drop_left' hhdrlen]

lemma szxCollect_length (pages : List (Nat × List Nat)) (hp : PagesGood pages) :
    ∀ (ks : List Nat) (rest : List Nat), szxCollect pages ks = Except.ok rest →
      rest.length = 16384 * ks.length := by
  intro ks
  induction ks with
  | nil =>
    intro rest h
    simp only [szxCollect, Except.ok.injEq] at h
    rw [← h]
    rfl
  | cons k ks ih =>
    intro rest h
    rw [szxCollect] at h
    cases hg : mapGet pages k with
    | none =>
      rw [hg] at h
      simp at h
    | some pg =>
      rw [hg] at h
      cases hc : szxCollect pages ks with
      | error msg =>
        rw [hc] at h
        simp [Except.map] at h
      | ok rest' =>
        rw [hc] at h
        simp only [Except.map, Except.ok.injEq] at h
        rw [← h, List.length_append, ih rest' hc, mapGet_good pages hp k pg hg,
          List.length_cons]
        ring

lemma szxBuild128_parts (st : SzxState) (p5 p2 pc rest : List Nat)
    (h5 : mapGet st.pages 5 = some p5) (h2 : mapGet st.pages 2 = some p2)
    (hc : mapGet st.pages (st.port7ffd % 8) = some pc)
    (hrest : szxCollect st.pages
      ((List.range 8).filter fun k =>
        decide (¬(k = 5 ∨ k = 2 ∨ k = st.port7ffd % 8))) = Except.ok rest)
    (l5 : p5.length = 16384) (l2 : p2.length = 16384) (lc : pc.length = 16384)
    (hp : PagesGood st.pages)
    (hne2 : st.port7ffd % 8 ≠ 2) (hne5 : st.port7ffd % 8 ≠ 5) :
    ∀ out, szxBuild128 st = Except.ok out →
      out.length = 131103 ∧
      out.take 27 = snaHeaderSzx st ∧
      (out.drop 27).take 16384 = p5 ∧
      (out.drop 16411).take 16384 = p2 ∧
      (out.drop 32795).take 16384 = pc ∧
      (out.drop 49179).take 4 =
        [st.regs.getD 22 0, st.regs.getD 23 0, st.port7ffd, 0] ∧
      out.drop 49183 = rest ∧
      ((List.range 8).filter fun k =>
        decide (¬(k = 5 ∨ k = 2 ∨ k = st.port7ffd % 8))).length = 5 := by
  intro out hout
  have hflen : ((List.range 8).filter fun k =>
      decide (¬(k = 5 ∨ k = 2 ∨ k = st.port7ffd % 8))).length = 5 :=
    filter_not52_length _ (by omega) hne2 hne5
  have hrestlen : rest.length = 81920 := by
    rw [szxCollect_length st.pages hp _ rest hrest, hflen]
  unfold szxBuild128 at hout
  simp only [h5, h2, hc, hrest] at hout
  have hhdr : (snaHeaderSzx st).length = 27 := rfl
  have hout' : out = snaHeaderSzx st ++ (p5 ++ (p2 ++ (pc ++
      ([st.regs.getD 22 0, st.regs.getD 23 0, st.port7ffd, 0] ++ rest)))) := by
    simp only [Except.ok.injEq] at hout
    rw [← hout]
    simp [List.append_assoc]
  refine ⟨?_, ?_, ?_, ?_, ?_, ?_, ?_, hflen⟩
  · rw [hout']
    simp only [List.length_append, hhdr, l5, l2, lc, hrestlen, List.length_cons,
      List.length_nil]
  · rw [hout', List.take_append_of_le_length (by omega), List.take_of_length_le (by omega)]
  · rw [hout', List.drop_left' hhdr, List.take_append_of_le_length (by omega),
      List.take_of_length_le (by omega)]
  · rw [hout', drop_append_big _ _ _ (by omega), hhdr]
    rw [drop_append_big _ _ _ (by omega), l5]
    show (p2 ++ _).take 16384 = _
    rw [List.take_append_of_le_length (by omega), List.take_of_length_le (by omega)]
  · rw [hout', drop_append_big _ _ _ (by omega), hhdr]
    rw [drop_append_big _ _ _ (by omega), l5]
    rw [drop_append_big _ _ _ (by omega), l2]
    show (pc ++ _).take 16384 = _
    rw [List.take_append_of_le_length (by omega), List.take_of_length_le (by omega)]
  · rw [hout', drop_append_big _ _ _ (by omega), hhdr]
    rw [drop_append_big _ _ _ (by omega), l5]
    rw [drop_append_big _ _ _ (by omega), l2]
    rw [drop_append_big _ _ _ (by omega), lc]
    show ([st.regs.getD 22 0, st.regs.getD 23 0, st.port7ffd, 0] ++ rest).take 4 = _
    rw [List.take_append_of_le_length (by simp)]
    rfl
  · rw [hout', drop_append_big _ _ _ (by omega), hhdr]
    rw [drop_append_big _ _ _ (by omega), l5]
    rw [drop_append_big _ _ _ (by omega), l2]
    rw [drop_append_big _ _ _ (by omega), lc]
    rw [drop_append_big _ _ _ (by simp)]
    show rest.drop 0 = rest
    rw [List.drop_zero]

lemma convert_szx_ok (dec : List Nat → Option (List Nat)) (input : List Nat)
    (machine : ZXMachine) (is128 : Bool) (st : SzxState)
    (hh : szxParseHeader input = Except.ok (machine, is128))
    (hc : szxChunks dec input input.length 8 szxInit = Except.ok st) :
    convert_szx_to_sna dec input =
      (if is128 then (szxBuild128 st).map fun sna => (sna, machine)
       else (szxBuild48 st).map fun sna => (sna, machine)) := by
  unfold convert_szx_to_sna
  simp only [hh, hc]

/-- C2: every input that either decoder maps to the 48 KiB variant yields a
canonical buffer of exactly 49179 bytes that begins with the 27-byte register
header in the documented field order (I; HL', DE', BC', AF'; HL, DE, BC, IY,
IX; interrupt byte; R; AF; SP, stored decremented by 2; interrupt mode;
border) and continues with the 49152-byte RAM image: pages 5, 2, 0
concatenated, possibly with the PC pushed at SP-2. -/
theorem sna48_canonical_layout :
    (∀ (input : List Nat) (p : Z80Pre) (banks : List (List Nat)),
      parseZ80Prelude input = Except.ok p →
      z80Banks input p = Except.ok banks →
      p.machine = ZXMachine.Sinclair48K →
      convert_z80_to_sna input = Except.ok (z80Build48 p banks, ZXMachine.Sinclair48K) ∧
      (z80Build48 p banks).length = 49179 ∧
      (z80Build48 p banks).take 27 =
        [p.i, p.lAlt, p.hAlt, p.eAlt, p.dAlt, p.cAlt, p.bAlt, p.fAlt, p.aAlt,
         p.l, p.h, p.e, p.d, p.c, p.b, p.iyLow, p.iyHigh, p.ixLow, p.ixHigh,
         p.iff2 / 4 % 2 + 2, p.r % 128 + p.byte12 % 2 * 128, p.f, p.a,
         (z80Sp p + 65534) % 65536 % 256, (z80Sp p + 65534) % 65536 / 256 % 256,
         p.byte29 % 4, p.byte12 / 2 % 8] ∧
      ((z80Build48 p banks).drop 27).length = 49152 ∧
      (z80Build48 p banks).drop 27 =
        (if 16384 ≤ (z80Sp p + 65534) % 65536 ∧ (z80Sp p + 65534) % 65536 ≤ 65534 then
          ((banks.getD 5 [] ++ banks.getD 2 [] ++ banks.getD 0 []).set
              ((z80Sp p + 65534) % 65536 - 16384) (p.pcReal % 256)).set
            ((z80Sp p + 65534) % 65536 - 16384 + 1) (p.pcReal / 256 % 256)
        else banks.getD 5 [] ++ banks.getD 2 [] ++ banks.getD 0 [])) ∧
    (∀ (dec : List Nat → Option (List Nat)) (input : List Nat) (st : SzxState)
      (out : List Nat),
      szxParseHeader input = Except.ok (ZXMachine.Sinclair48K, false) →
      szxChunks dec input input.length 8 szxInit = Except.ok st →
      szxBuild48 st = Except.ok out →
      convert_szx_to_sna dec input = Except.ok (out, ZXMachine.Sinclair48K) ∧
      out.length = 49179 ∧
      out.take 27 =
        [st.regs.getD 24 0,
         st.regs.getD 14 0, st.regs.getD 15 0, st.regs.getD 12 0, st.regs.getD 13 0,
         st.regs.getD 10 0, st.regs.getD 11 0, st.regs.getD 8 0, st.regs.getD 9 0,
         st.regs.getD 6 0, st.regs.getD 7 0, st.regs.getD 4 0, st.regs.getD 5 0,
         st.regs.getD 2 0, st.regs.getD 3 0, st.regs.getD 18 0, st.regs.getD 19 0,
         st.regs.getD 16 0, st.regs.getD 17 0,
         (if st.regs.getD 27 0 ≠ 0 then 4 else 0) + 2, st.regs.getD 25 0,
         st.regs.getD 0 0, st.regs.getD 1 0,
         ((st.regs.getD 20 0 + 256 * st.regs.getD 21 0 + 65534) % 65536) % 256,
         ((st.regs.getD 20 0 + 256 * st.regs.getD 21 0 + 65534) % 65536) / 256 % 256,
         st.regs.getD 28 0, st.border % 8] ∧
      ((out.drop 27).length = 49152 ∧
        ∀ p5 p2 p0 : List Nat, mapGet st.pages 5 = some p5 →
          mapGet st.pages 2 = some p2 → mapGet st.pages 0 = some p0 →
          out.drop 27 =
            (if 16384 ≤ (st.regs.getD 20 0 + 256 * st.regs.getD 21 0 + 65534) % 65536 ∧
                (st.regs.getD 20 0 + 256 * st.regs.getD 21 0 + 65534) % 65536 ≤ 65534 then
              ((p5 ++ p2 ++ p0).set
                  ((st.regs.getD 20 0 + 256 * st.regs.getD 21 0 + 65534) % 65536 - 16384)
                  (st.regs.getD 22 0)).set
                ((st.regs.getD 20 0 + 256 * st.regs.getD 21 0 + 65534) % 65536 - 16384 + 1)
                (st.regs.getD 23 0)
            else p5 ++ p2 ++ p0))) := by
  constructor
  · intro input p banks hp hb hm
    have hg : BanksGood banks := z80Banks_good input p banks hb
    obtain ⟨hlen, htake, hdrop⟩ := z80Build48_parts p banks hg
    refine ⟨?_, hlen, htake, ?_, hdrop⟩
    · rw [convert_z80_ok input p banks hp hb, if_pos hm, hm]
    · rw [List.length_drop, hlen]
  · intro dec input st out hh hc hout
    have hpg : PagesGood st.pages :=
      szxChunks_pagesGood dec input input.length 8 szxInit st pagesGood_nil hc
    cases h5 : mapGet st.pages 5 with
    | none =>
      exact absurd hout (by unfold szxBuild48; rw [h5]; simp)
    | some p5 =>
    cases h2 : mapGet st.pages 2 with
    | none =>
      exact absurd hout (by unfold szxBuild48; rw [h5, h2]; simp)
    | some p2 =>
    cases h0 : mapGet st.pages 0 with
    | none =>
      exact absurd hout (by unfold szxBuild48; rw [h5, h2, h0]; simp)
    | some p0 =>
    have l5 := mapGet_good st.pages hpg 5 p5 h5
    have l2 := mapGet_good st.pages hpg 2 p2 h2
    have l0 := mapGet_good st.pages hpg 0 p0 h0
    obtain ⟨hlen, htake, hdrop⟩ :=
      szxBuild48_parts st p5 p2 p0 h5 h2 h0 l5 l2 l0 out hout
    refine ⟨?_, hlen, htake, ?_, ?_⟩
    · rw [convert_szx_ok dec input ZXMachine.Sinclair48K false st hh hc]
      rw [show ((if false then (szxBuild128 st).map fun sna => (sna, ZXMachine.Sinclair48K)
          else (szxBuild48 st).map fun sna => (sna, ZXMachine.Sinclair48K)) =
          (szxBuild48 st).map fun sna => (sna, ZXMachine.Sinclair48K)) from rfl, hout]
      rfl
    · rw [List.length_drop, hlen]
    · intro q5 q2 q0 hq5 hq2 hq0
      have e5 : p5 = q5 := Option.some.inj hq5
      have e2 : p2 = q2 := Option.some.inj hq2
      have e0 : p0 = q0 := Option.some.inj hq0
      rw [← e5, ← e2, ← e0]
      exact hdrop

lemma zeroPage_length : zeroPage.length = 16384 := List.length_replicate 16384 0

lemma copyIntoBuffer_nil (dst : List Nat) : copyIntoBuffer [] dst = dst := by
  unfold copyIntoBuffer
  simp

lemma z80Banks_v1_zero (input : List Nat) (p : Z80Pre) (hv : p.version = 1)
    (hrem : input.drop p.bodyPos = []) (hcmp : p.byte12 / 32 % 2 = 0) :
    z80Banks input p = Except.ok zeroBanks := by
  unfold z80Banks
  rw [if_pos hv]
  unfold z80BanksV1
  dsimp only
  rw [hrem, if_neg (by omega), copyIntoBuffer_nil]
  rw [List.take_replicate, List.drop_replicate, List.take_replicate,
    List.drop_replicate, List.take_replicate]
  have e1 : min 16384 49152 = 16384 := by decide
  have e2 : min 16384 (49152 - 16384) = 16384 := by decide
  have e3 : min 16384 (49152 - 32768) = 16384 := by decide
  rw [e1, e2, e3]
  refine congrArg Except.ok ?_
  unfold zeroBanks
  rw [List.set_replicate_self, List.set_replicate_self, List.set_replicate_self]

lemma z80Build128_length (p : Z80Pre) (banks : List (List Nat)) (hg : BanksGood banks) :
    (z80Build128 p banks).length =
      49183 + (remainingBanks banks (p.port7ffd % 8)).length := by
  have hb5 := banksGood_getD banks hg 5 (by omega)
  have hb2 := banksGood_getD banks hg 2 (by omega)
  have hba := banksGood_getD banks hg (p.port7ffd % 8) (by omega)
  have hhdr : (snaHeaderZ80 p).length = 27 := rfl
  unfold z80Build128
  dsimp only
  simp only [List.length_append, hhdr, hb5, hb2, hba, List.length_cons, List.length_nil]

lemma szxChunks_stop (dec : List Nat → Option (List Nat)) (input : List Nat)
    (fuel pos : Nat) (st : SzxState) (h : input.length ≤ pos) :
    szxChunks dec input fuel pos st = Except.ok st := by
  cases fuel with
  | zero => rw [szxChunks]
  | succ fuel => rw [szxChunks, if_neg (by omega)]

lemma szxChunks_z80r_step (dec : List Nat → Option (List Nat)) (input : List Nat)
    (fuel pos : Nat) (st : SzxState)
    (htag : (input.drop pos).take 4 = [90, 56, 48, 82])
    (hb : pos + 8 + min (readU32 input (pos + 4)) 37 ≤ input.length) :
    szxChunks dec input (fuel + 1) pos st =
      szxChunks dec input fuel (pos + 8 + readU32 input (pos + 4))
        { st with regs := (input.drop (pos + 8)).take (min (readU32 input (pos + 4)) 37) ++
            st.regs.drop (min (readU32 input (pos + 4)) 37) } := by
  rw [szxChunks]
  rw [if_pos (by omega), if_neg (by omega), if_neg (by omega)]
  dsimp only
  rw [if_pos htag, if_neg (by omega)]

lemma szxChunks_rampc_step (dec : List Nat → Option (List Nat)) (input : List Nat)
    (fuel pos : Nat) (st : SzxState) (pageData : List Nat)
    (htag : (input.drop pos).take 4 = [82, 65, 77, 80])
    (hs3 : 3 ≤ readU32 input (pos + 4))
    (hb : pos + 8 + readU32 input (pos + 4) ≤ input.length)
    (hfl : (input.getD (pos + 8) 0 + 256 * input.getD (pos + 8 + 1) 0) % 2 = 1)
    (hdec : dec ((input.drop (pos + 8 + 3)).take (readU32 input (pos + 4) - 3)) =
      some pageData)
    (hlen : pageData.length = 16384) :
    szxChunks dec input (fuel + 1) pos st =
      szxChunks dec input fuel (pos + 8 + readU32 input (pos + 4))
        { st with pages := mapInsert st.pages (input.getD (pos + 8 + 2) 0) pageData } := by
  rw [szxChunks]
  rw [if_pos (by omega), if_neg (by omega), if_neg (by omega)]
  dsimp only
  have hnz : ¬ (input.drop pos).take 4 = [90, 56, 48, 82] := by rw [htag]; decide
  rw [if_neg hnz, if_pos htag, if_neg (by omega), if_neg (by omega), if_pos hfl]
  simp only [hdec]
  rw [if_pos hlen]

lemma c2s_chunks : szxChunks decZero c2s 70 8 szxInit = Except.ok c2sSt := by
  have s1 : szxChunks decZero c2s 70 8 szxInit = szxChunks decZero c2s 69 37 c2sSt1 :=
    szxChunks_z80r_step decZero c2s 69 8 szxInit rfl (by decide)
  have s2 : szxChunks decZero c2s 69 37 c2sSt1 = szxChunks decZero c2s 68 48 c2sSt2 :=
    szxChunks_rampc_step decZero c2s 68 37 c2sSt1 zeroPage rfl (by decide) (by decide)
      (by decide) rfl zeroPage_length
  have s3 : szxChunks decZero c2s 68 48 c2sSt2 = szxChunks decZero c2s 67 59 c2sSt3 :=
    szxChunks_rampc_step decZero c2s 67 48 c2sSt2 zeroPage rfl (by decide) (by decide)
      (by decide) rfl zeroPage_length
  have s4 : szxChunks decZero c2s 67 59 c2sSt3 = szxChunks decZero c2s 66 70 c2sSt :=
    szxChunks_rampc_step decZero c2s 66 59 c2sSt3 zeroPage rfl (by decide) (by decide)
      (by decide) rfl zeroPage_length
  have s5 : szxChunks decZero c2s 66 70 c2sSt = Except.ok c2sSt :=
    szxChunks_stop decZero c2s 66 70 c2sSt (by decide)
  exact s1.trans (s2.trans (s3.trans (s4.trans s5)))

lemma c3s_chunks : szxChunks decZero c3s 96 8 szxInit = Except.ok (c3sStAt 8) := by
  have s0 : szxChunks decZero c3s 96 8 szxInit =
      szxChunks decZero c3s 95 19 (c3sStAt 1) :=
    szxChunks_rampc_step decZero c3s 95 8 szxInit zeroPage rfl (by decide) (by decide)
      (by decide) rfl zeroPage_length
  have s1 : szxChunks decZero c3s 95 19 (c3sStAt 1) =
      szxChunks decZero c3s 94 30 (c3sStAt 2) :=
    szxChunks_rampc_step decZero c3s 94 19 (c3sStAt 1) zeroPage rfl (by decide) (by decide)
      (by decide) rfl zeroPage_length
  have s2 : szxChunks decZero c3s 94 30 (c3sStAt 2) =
      szxChunks decZero c3s 93 41 (c3sStAt 3) :=
    szxChunks_rampc_step decZero c3s 93 30 (c3sStAt 2) zeroPage rfl (by decide) (by decide)
      (by decide) rfl zeroPage_length
  have s3 : szxChunks decZero c3s 93 41 (c3sStAt 3) =
      szxChunks decZero c3s 92 52 (c3sStAt 4) :=
    szxChunks_rampc_step decZero c3s 92 41 (c3sStAt 3) zeroPage rfl (by decide) (by decide)
      (by decide) rfl zeroPage_length
  have s4 : szxChunks decZero c3s 92 52 (c3sStAt 4) =
      szxChunks decZero c3s 91 63 (c3sStAt 5) :=
    szxChunks_rampc_step decZero c3s 91 52 (c3sStAt 4) zeroPage rfl (by decide) (by decide)
      (by decide) rfl zeroPage_length
  have s5 : szxChunks decZero c3s 91 63 (c3sStAt 5) =
      szxChunks decZero c3s 90 74 (c3sStAt 6) :=
    szxChunks_rampc_step decZero c3s 90 63 (c3sStAt 5) zeroPage rfl (by decide) (by decide)
      (by decide) rfl zeroPage_length
  have s6 : szxChunks decZero c3s 90 74 (c3sStAt 6) =
      szxChunks decZero c3s 89 85 (c3sStAt 7) :=
    szxChunks_rampc_step decZero c3s 89 74 (c3sStAt 6) zeroPage rfl (by decide) (by decide)
      (by decide) rfl zeroPage_length
  have s7 : szxChunks decZero c3s 89 85 (c3sStAt 7) =
      szxChunks decZero c3s 88 96 (c3sStAt 8) :=
    szxChunks_rampc_step decZero c3s 88 85 (c3sStAt 7) zeroPage rfl (by decide) (by decide)
      (by decide) rfl zeroPage_length
  have s8 : szxChunks decZero c3s 88 96 (c3sStAt 8) = Except.ok (c3sStAt 8) :=
    szxChunks_stop decZero c3s 88 96 (c3sStAt 8) (by decide)
  exact s0.trans (s1.trans (s2.trans (s3.trans (s4.trans (s5.trans (s6.trans
    (s7.trans s8)))))))

lemma getD_take_of_lt (l : List Nat) (n k : Nat) (h : n < k) :
    (l.take k).getD n 0 = l.getD n 0 := by
  rw [List.getD_eq_getElem?_getD, List.getD_eq_getElem?_getD, List.getElem?_take_of_lt h]

lemma getD_drop_add (l : List Nat) (m n : Nat) :
    (l.drop m).getD n 0 = l.getD (m + n) 0 := by
  rw [List.getD_eq_getElem?_getD, List.getD_eq_getElem?_getD, List.getElem?_drop]

lemma getD_set_pair_fst (ram : List Nat) (a x y : Nat) (h : a + 1 < ram.length) :
    ((ram.set a x).set (a + 1) y).getD a 0 = x := by
  rw [List.getD_eq_getElem?_getD, List.getElem?_set_ne (by omega),
    List.getElem?_set_self (by omega)]
  rfl

lemma getD_set_pair_snd (ram : List Nat) (a x y : Nat) (h : a + 1 < ram.length) :
    ((ram.set a x).set (a + 1) y).getD (a + 1) 0 = y := by
  rw [List.getD_eq_getElem?_getD, List.getElem?_set_self (by rw [List.length_set]; omega)]
  rfl

/-- C7 amended theorem: with a zero PC field the extended-header length
selects the version (23 gives v2, 54 or 55 gives v3, anything else leaves the
version at 1); for lengths 23, 54 and 55 the memory body is parsed as the
length-prefixed page-tagged block list, while for every other length it is
parsed as the single version-1 flat block. -/
theorem z80_version_selection (input : List Nat) (p : Z80Pre)
    (hp : parseZ80Prelude input = Except.ok p) (hpc : p.pcField = 0) :
    p.version = (if p.headerLen = 23 then 2
      else if p.headerLen = 54 ∨ p.headerLen = 55 then 3 else 1) ∧
    (p.headerLen = 23 ∨ p.headerLen = 54 ∨ p.headerLen = 55 →
      z80Banks input p =
        z80LoadBlocks input p.hardwareMode input.length p.bodyPos zeroBanks) ∧
    (p.headerLen ≠ 23 → p.headerLen ≠ 54 → p.headerLen ≠ 55 →
      p.version = 1 ∧ z80Banks input p = Except.ok (z80BanksV1 input p)) := by
  have hv := parseZ80_fields input p hp hpc
  refine ⟨hv, ?_, ?_⟩
  · intro h
    have hne : p.version ≠ 1 := by
      rw [hv]
      rcases h with h | h | h
      · rw [if_pos h]; decide
      · rw [if_neg (by omega), if_pos (Or.inl h)]; decide
      · rw [if_neg (by omega), if_pos (Or.inr h)]; decide
    unfold z80Banks
    rw [if_neg hne]
  · intro h23 h54 h55
    have h1 : p.version = 1 := by
      rw [hv, if_neg h23, if_neg (fun hor => hor.elim h54 h55)]
    exact ⟨h1, by unfold z80Banks; rw [if_pos h1]⟩

/-- C7 counterexample: extended length 2 with a zero PC field leaves the
version at 1 and the memory body is parsed as a version-1 flat block,
contradicting the claim that such inputs are treated as v2-compatible and
never parsed as a flat block. -/
theorem z80_version_fallback_cex :
    parseZ80Prelude c7z = Except.ok c7zPre ∧
    c7zPre.pcField = 0 ∧
    c7zPre.headerLen = 2 ∧
    c7zPre.headerLen ≠ 23 ∧ c7zPre.headerLen ≠ 54 ∧ c7zPre.headerLen ≠ 55 ∧
    c7zPre.version = 1 ∧
    z80Banks c7z c7zPre = Except.ok (z80BanksV1 c7z c7zPre) :=
  ⟨rfl, rfl, rfl, by decide, by decide, by decide, rfl, rfl⟩

/-- Witness for the C7 amended theorem at the concrete extended-length-2
input `c7z`. -/
theorem z80_version_selection_witness :
    parseZ80Prelude c7z = Except.ok c7zPre ∧ c7zPre.pcField = 0 ∧
    c7zPre.version = (if c7zPre.headerLen = 23 then 2
      else if c7zPre.headerLen = 54 ∨ c7zPre.headerLen = 55 then 3 else 1) :=
  ⟨rfl, rfl, (z80_version_selection c7z c7zPre rfl rfl).1⟩

/-- C8 amended theorem: in both decoders the canonical header's SP field
(bytes 23/24) always holds SP-2 wrapped modulo 65536, but the PC bytes (low
then high) are written into the RAM image, at offset SP-2 minus 16384, only
when 16384 <= SP-2 <= 65534; otherwise the RAM image is left unmodified. -/
theorem sna48_stack_push :
    (∀ (input : List Nat) (p : Z80Pre) (banks : List (List Nat)),
      parseZ80Prelude input = Except.ok p →
      z80Banks input p = Except.ok banks →
      p.machine = ZXMachine.Sinclair48K →
      convert_z80_to_sna input = Except.ok (z80Build48 p banks, ZXMachine.Sinclair48K) ∧
      (z80Build48 p banks).getD 23 0 = (z80Sp p + 65534) % 65536 % 256 ∧
      (z80Build48 p banks).getD 24 0 = (z80Sp p + 65534) % 65536 / 256 % 256 ∧
      (16384 ≤ (z80Sp p + 65534) % 65536 → (z80Sp p + 65534) % 65536 ≤ 65534 →
        (z80Build48 p banks).getD (27 + ((z80Sp p + 65534) % 65536 - 16384)) 0 =
          p.pcReal % 256 ∧
        (z80Build48 p banks).getD (28 + ((z80Sp p + 65534) % 65536 - 16384)) 0 =
          p.pcReal / 256 % 256) ∧
      (¬ 16384 ≤ (z80Sp p + 65534) % 65536 ∨ ¬ (z80Sp p + 65534) % 65536 ≤ 65534 →
        (z80Build48 p banks).drop 27 =
          banks.getD 5 [] ++ banks.getD 2 [] ++ banks.getD 0 [])) ∧
    (∀ (dec : List Nat → Option (List Nat)) (input : List Nat) (st : SzxState)
      (out : List Nat),
      szxParseHeader input = Except.ok (ZXMachine.Sinclair48K, false) →
      szxChunks dec input input.length 8 szxInit = Except.ok st →
      szxBuild48 st = Except.ok out →
      convert_szx_to_sna dec input = Except.ok (out, ZXMachine.Sinclair48K) ∧
      out.getD 23 0 =
        (st.regs.getD 20 0 + 256 * st.regs.getD 21 0 + 65534) % 65536 % 256 ∧
      out.getD 24 0 =
        (st.regs.getD 20 0 + 256 * st.regs.getD 21 0 + 65534) % 65536 / 256 % 256 ∧
      (16384 ≤ (st.regs.getD 20 0 + 256 * st.regs.getD 21 0 + 65534) % 65536 →
       (st.regs.getD 20 0 + 256 * st.regs.getD 21 0 + 65534) % 65536 ≤ 65534 →
        out.getD
            (27 + ((st.regs.getD 20 0 + 256 * st.regs.getD 21 0 + 65534) % 65536 - 16384))
            0 = st.regs.getD 22 0 ∧
        out.getD
            (28 + ((st.regs.getD 20 0 + 256 * st.regs.getD 21 0 + 65534) % 65536 - 16384))
            0 = st.regs.getD 23 0) ∧
      (∀ p5 p2 p0 : List Nat, mapGet st.pages 5 = some p5 →
        mapGet st.pages 2 = some p2 → mapGet st.pages 0 = some p0 →
        (¬ 16384 ≤ (st.regs.getD 20 0 + 256 * st.regs.getD 21 0 + 65534) % 65536 ∨
         ¬ (st.regs.getD 20 0 + 256 * st.regs.getD 21 0 + 65534) % 65536 ≤ 65534) →
        out.drop 27 = p5 ++ p2 ++ p0)) := by
  constructor
  · intro input p banks hp hb hm
    have hg := z80Banks_good input p banks hb
    obtain ⟨hlen, htake, hdrop⟩ := z80Build48_parts p banks hg
    have hb5 := banksGood_getD banks hg 5 (by omega)
    have hb2 := banksGood_getD banks hg 2 (by omega)
    have hb0 := banksGood_getD banks hg 0 (by omega)
    have hrlen : (banks.getD 5 [] ++ banks.getD 2 [] ++ banks.getD 0 []).length = 49152 := by
      simp only [List.length_append]
      omega
    refine ⟨?_, ?_, ?_, ?_, ?_⟩
    · rw [convert_z80_ok input p banks hp hb, if_pos hm, hm]
    · rw [← getD_take_of_lt _ 23 27 (by omega), htake]
      rfl
    · rw [← getD_take_of_lt _ 24 27 (by omega), htake]
      rfl
    · intro ha hbnd
      constructor
      · rw [← getD_drop_add _ 27 _, hdrop, if_pos ⟨ha, hbnd⟩]
        exact getD_set_pair_fst _ _ _ _ (by omega)
      · have e : 28 + ((z80Sp p + 65534) % 65536 - 16384) =
            27 + (((z80Sp p + 65534) % 65536 - 16384) + 1) := by omega
        rw [e, ← getD_drop_add _ 27 _, hdrop, if_pos ⟨ha, hbnd⟩]
        exact getD_set_pair_snd _ _ _ _ (by omega)
    · intro hor
      rw [hdrop, if_neg (fun hand => hor.elim (fun hna => hna hand.1)
        (fun hnb => hnb hand.2))]
  · intro dec input st out hh hc hout
    have hpg : PagesGood st.pages :=
      szxChunks_pagesGood dec input input.length 8 szxInit st pagesGood_nil hc
    cases h5 : mapGet st.pages 5 with
    | none =>
      exact absurd hout (by unfold szxBuild48; rw [h5]; simp)
    | some p5 =>
    cases h2 : mapGet st.pages 2 with
    | none =>
      exact absurd hout (by unfold szxBuild48; rw [h5, h2]; simp)
    | some p2 =>
    cases h0 : mapGet st.pages 0 with
    | none =>
      exact absurd hout (by unfold szxBuild48; rw [h5, h2, h0]; simp)
    | some p0 =>
    have l5 := mapGet_good st.pages hpg 5 p5 h5
    have l2 := mapGet_good st.pages hpg 2 p2 h2
    have l0 := mapGet_good st.pages hpg 0 p0 h0
    obtain ⟨hlen, htake, hdrop⟩ :=
      szxBuild48_parts st p5 p2 p0 h5 h2 h0 l5 l2 l0 out hout
    have hrlen : (p5 ++ p2 ++ p0).length = 49152 := by
      simp only [List.length_append]
      omega
    refine ⟨?_, ?_, ?_, ?_, ?_⟩
    · rw [convert_szx_ok dec input ZXMachine.Sinclair48K false st hh hc]
      rw [show ((if false then (szxBuild128 st).map fun sna => (sna, ZXMachine.Sinclair48K)
          else (szxBuild48 st).map fun sna => (sna, ZXMachine.Sinclair48K)) =
          (szxBuild48 st).map fun sna => (sna, ZXMachine.Sinclair48K)) from rfl, hout]
      rfl
    · rw [← getD_take_of_lt _ 23 27 (by omega), htake]
      rfl
    · rw [← getD_take_of_lt _ 24 27 (by omega), htake]
      rfl
    · intro ha hbnd
      constructor
      · rw [← getD_drop_add _ 27 _, hdrop, if_pos ⟨ha, hbnd⟩]
        exact getD_set_pair_fst _ _ _ _ (by omega)
      · have e : 28 + ((st.regs.getD 20 0 + 256 * st.regs.getD 21 0 + 65534) % 65536
            - 16384) =
            27 + (((st.regs.getD 20 0 + 256 * st.regs.getD 21 0 + 65534) % 65536
              - 16384) + 1) := by omega
        rw [e, ← getD_drop_add _ 27 _, hdrop, if_pos ⟨ha, hbnd⟩]
        exact getD_set_pair_snd _ _ _ _ (by omega)
    · intro q5 q2 q0 hq5 hq2 hq0 hor
      have e5 : p5 = q5 := Option.some.inj hq5
      have e2 : p2 = q2 := Option.some.inj hq2
      have e0 : p0 = q0 := Option.some.inj hq0
      rw [← e5, ← e2, ← e0]
      rw [hdrop, if_neg (fun hand => hor.elim (fun hna => hna hand.1)
        (fun hnb => hnb hand.2))]

/-- C8 counterexample: with SP = 2 the wrapped SP-2 is 0, so no PC byte is
written anywhere: the RAM image of the converted `c8z` stays all zero and the
PC high byte 128 appears nowhere in it, although the header SP bytes are
updated to 0. -/
theorem sna48_push_skipped_cex :
    parseZ80Prelude c8z = Except.ok c8zPre ∧
    z80Sp c8zPre = 2 ∧
    c8zPre.pcReal / 256 % 256 = 128 ∧
    z80Banks c8z c8zPre = Except.ok zeroBanks ∧
    convert_z80_to_sna c8z =
      Except.ok (z80Build48 c8zPre zeroBanks, ZXMachine.Sinclair48K) ∧
    (z80Build48 c8zPre zeroBanks).getD 23 0 = 0 ∧
    (z80Build48 c8zPre zeroBanks).getD 24 0 = 0 ∧
    (z80Build48 c8zPre zeroBanks).drop 27 = List.replicate 49152 0 ∧
    (128 : Nat) ∉ (z80Build48 c8zPre zeroBanks).drop 27 := by
  have hb : z80Banks c8z c8zPre = Except.ok zeroBanks :=
    z80Banks_v1_zero c8z c8zPre rfl rfl rfl
  obtain ⟨hlen, htake, hdrop⟩ := z80Build48_parts c8zPre zeroBanks zeroBanks_good
  have hd : (z80Build48 c8zPre zeroBanks).drop 27 = List.replicate 49152 0 := by
    rw [hdrop, if_neg (by decide)]
    have e : (49152 : Nat) = 16384 + (16384 + 16384) := by norm_num
    rw [e, List.replicate_add, List.replicate_add, ← List.append_assoc]
    rfl
  refine ⟨rfl, rfl, rfl, hb, ?_, ?_, ?_, hd, ?_⟩
  · rw [convert_z80_ok c8z c8zPre zeroBanks rfl hb]
    rfl
  · rw [← getD_take_of_lt _ 23 27 (by omega), htake]
    decide
  · rw [← getD_take_of_lt _ 24 27 (by omega), htake]
    decide
  · rw [hd]
    intro hmem
    have h128 := List.eq_of_mem_replicate hmem
    omega

/-- Witness for the C8 amended theorem at `c8w` (SP = 0x8000), where the
push lands in range, applying the header-SP and pushed-byte clauses. -/
theorem sna48_stack_push_witness :
    parseZ80Prelude c8w = Except.ok c8wPre ∧
    z80Banks c8w c8wPre = Except.ok zeroBanks ∧
    c8wPre.machine = ZXMachine.Sinclair48K ∧
    16384 ≤ (z80Sp c8wPre + 65534) % 65536 ∧
    (z80Sp c8wPre + 65534) % 65536 ≤ 65534 ∧
    (z80Build48 c8wPre zeroBanks).getD 23 0 = (z80Sp c8wPre + 65534) % 65536 % 256 ∧
    (z80Build48 c8wPre zeroBanks).getD
        (27 + ((z80Sp c8wPre + 65534) % 65536 - 16384)) 0 = c8wPre.pcReal % 256 ∧
    (z80Build48 c8wPre zeroBanks).getD
        (28 + ((z80Sp c8wPre + 65534) % 65536 - 16384)) 0 = c8wPre.pcReal / 256 % 256 := by
  have hb : z80Banks c8w c8wPre = Except.ok zeroBanks :=
    z80Banks_v1_zero c8w c8wPre rfl rfl rfl
  have h := sna48_stack_push.1 c8w c8wPre zeroBanks rfl hb rfl
  have hpush := h.2.2.2.1 (by decide) (by decide)
  exact ⟨rfl, hb, rfl, by decide, by decide, h.2.1, hpush.1, hpush.2⟩

/-- C3 amended theorem: whenever the active page (paging-port value mod 8)
is neither 2 nor 5, both decoders produce for the 128 KiB variant exactly
131103 bytes laid out as the 27-byte header, pages 5, 2 and the active page,
the 4-byte extension header (PC low, PC high, paging-port value, reserved 0),
then the remaining five pages in ascending page-number order. -/
theorem sna128_canonical_layout :
    (∀ (input : List Nat) (p : Z80Pre) (banks : List (List Nat)),
      parseZ80Prelude input = Except.ok p →
      z80Banks input p = Except.ok banks →
      p.machine = ZXMachine.Sinclair128K →
      p.port7ffd % 8 ≠ 2 → p.port7ffd % 8 ≠ 5 →
      convert_z80_to_sna input = Except.ok (z80Build128 p banks, ZXMachine.Sinclair128K) ∧
      (z80Build128 p banks).length = 131103 ∧
      (z80Build128 p banks).take 27 = snaHeaderZ80 p ∧
      ((z80Build128 p banks).drop 27).take 16384 = banks.getD 5 [] ∧
      ((z80Build128 p banks).drop 16411).take 16384 = banks.getD 2 [] ∧
      ((z80Build128 p banks).drop 32795).take 16384 = banks.getD (p.port7ffd % 8) [] ∧
      ((z80Build128 p banks).drop 49179).take 4 =
        [p.pcReal % 256, p.pcReal / 256 % 256, p.port7ffd, 0] ∧
      (z80Build128 p banks).drop 49183 = remainingBanks banks (p.port7ffd % 8)) ∧
    (∀ (dec : List Nat → Option (List Nat)) (input : List Nat) (st : SzxState)
      (out : List Nat),
      szxParseHeader input = Except.ok (ZXMachine.Sinclair128K, true) →
      szxChunks dec input input.length 8 szxInit = Except.ok st →
      szxBuild128 st = Except.ok out →
      st.port7ffd % 8 ≠ 2 → st.port7ffd % 8 ≠ 5 →
      convert_szx_to_sna dec input = Except.ok (out, ZXMachine.Sinclair128K) ∧
      out.length = 131103 ∧
      out.take 27 = snaHeaderSzx st ∧
      (out.drop 49179).take 4 =
        [st.regs.getD 22 0, st.regs.getD 23 0, st.port7ffd, 0] ∧
      (∀ p5 : List Nat, mapGet st.pages 5 = some p5 →
        (out.drop 27).take 16384 = p5) ∧
      (∀ p2 : List Nat, mapGet st.pages 2 = some p2 →
        (out.drop 16411).take 16384 = p2) ∧
      (∀ pC : List Nat, mapGet st.pages (st.port7ffd % 8) = some pC →
        (out.drop 32795).take 16384 = pC) ∧
      (∀ rest : List Nat, szxCollect st.pages ((List.range 8).filter fun k =>
          decide (¬(k = 5 ∨ k = 2 ∨ k = st.port7ffd % 8))) = Except.ok rest →
        out.drop 49183 = rest)) := by
  constructor
  · intro input p banks hp hb hm hne2 hne5
    have hg := z80Banks_good input p banks hb
    obtain ⟨hlen, htake, hd5, hd2, hda, hext, hrem, hfl⟩ :=
      z80Build128_parts p banks hg hne2 hne5
    refine ⟨?_, hlen, htake, hd5, hd2, hda, hext, hrem⟩
    rw [convert_z80_ok input p banks hp hb, if_neg (by rw [hm]; decide), hm]
  · intro dec input st out hh hc hout hne2 hne5
    have hpg : PagesGood st.pages :=
      szxChunks_pagesGood dec input input.length 8 szxInit st pagesGood_nil hc
    cases h5 : mapGet st.pages 5 with
    | none =>
      exact absurd hout (by unfold szxBuild128; rw [h5]; simp)
    | some p5 =>
    cases h2 : mapGet st.pages 2 with
    | none =>
      exact absurd hout (by unfold szxBuild128; rw [h5, h2]; simp)
    | some p2 =>
    cases hact : mapGet st.pages (st.port7ffd % 8) with
    | none =>
      exact absurd hout (by
        unfold szxBuild128
        rw [h5, h2]
        dsimp only
        rw [hact]
        simp)
    | some pC =>
    cases hcol : szxCollect st.pages ((List.range 8).filter fun k =>
        decide (¬(k = 5 ∨ k = 2 ∨ k = st.port7ffd % 8))) with
    | error msg =>
      exact absurd hout (by
        unfold szxBuild128
        rw [h5, h2]
        dsimp only
        rw [hact, hcol]
        simp)
    | ok rest =>
    have l5 := mapGet_good st.pages hpg 5 p5 h5
    have l2 := mapGet_good st.pages hpg 2 p2 h2
    have lc := mapGet_good st.pages hpg _ pC hact
    obtain ⟨hlen, htake, hd5, hd2, hda, hext, hrest, hfl⟩ :=
      szxBuild128_parts st p5 p2 pC rest h5 h2 hact hcol l5 l2 lc hpg hne2 hne5 out hout
    refine ⟨?_, hlen, htake, hext, ?_, ?_, ?_, ?_⟩
    · rw [convert_szx_ok dec input ZXMachine.Sinclair128K true st hh hc]
      rw [show ((if true then (szxBuild128 st).map fun sna => (sna, ZXMachine.Sinclair128K)
          else (szxBuild48 st).map fun sna => (sna, ZXMachine.Sinclair128K)) =
          (szxBuild128 st).map fun sna => (sna, ZXMachine.Sinclair128K)) from rfl, hout]
      rfl
    · intro q5 hq5
      rw [← Option.some.inj hq5]
      exact hd5
    · intro q2 hq2
      rw [← Option.some.inj hq2]
      exact hd2
    · intro qC hqC
      rw [← Option.some.inj hqC]
      exact hda
    · intro qrest hqrest
      rw [← Except.ok.inj hqrest]
      exact hrest

/-- C3 counterexample: a Z80 input whose paging port selects active page 5
converts to a 147487-byte buffer, not 131103 bytes, because the
remaining-pages filter then excludes only pages 5 and 2 and six 16384-byte
pages follow the extension header. -/
theorem sna128_active_page_size_cex :
    parseZ80Prelude c3z = Except.ok c3zPre ∧
    c3zPre.machine = ZXMachine.Sinclair128K ∧
    c3zPre.port7ffd % 8 = 5 ∧
    z80Banks c3z c3zPre = Except.ok zeroBanks ∧
    convert_z80_to_sna c3z =
      Except.ok (z80Build128 c3zPre zeroBanks, ZXMachine.Sinclair128K) ∧
    (z80Build128 c3zPre zeroBanks).length = 147487 ∧
    (147487 : Nat) ≠ 131103 := by
  refine ⟨rfl, rfl, by decide, rfl, ?_, ?_, by decide⟩
  · rw [convert_z80_ok c3z c3zPre zeroBanks rfl rfl]
    rfl
  · rw [z80Build128_length c3zPre zeroBanks zeroBanks_good,
      remainingBanks_length zeroBanks _ zeroBanks_good]
    decide

/-- Witness for the C3 amended theorem at a concrete 128K Z80 input (`c3w`,
active page 0) and a concrete SZX input (`c3s`, eight compressed pages). -/
theorem sna128_canonical_layout_witness :
    (parseZ80Prelude c3w = Except.ok c3wPre ∧
     z80Banks c3w c3wPre = Except.ok zeroBanks ∧
     c3wPre.machine = ZXMachine.Sinclair128K ∧
     c3wPre.port7ffd % 8 ≠ 2 ∧ c3wPre.port7ffd % 8 ≠ 5 ∧
     convert_z80_to_sna c3w =
       Except.ok (z80Build128 c3wPre zeroBanks, ZXMachine.Sinclair128K) ∧
     (z80Build128 c3wPre zeroBanks).length = 131103) ∧
    (szxParseHeader c3s = Except.ok (ZXMachine.Sinclair128K, true) ∧
     szxChunks decZero c3s c3s.length 8 szxInit = Except.ok (c3sStAt 8) ∧
     szxBuild128 (c3sStAt 8) = Except.ok c3sOut ∧
     convert_szx_to_sna decZero c3s = Except.ok (c3sOut, ZXMachine.Sinclair128K) ∧
     c3sOut.length = 131103) := by
  have hch : szxChunks decZero c3s c3s.length 8 szxInit = Except.ok (c3sStAt 8) :=
    c3s_chunks
  have hz := sna128_canonical_layout.1 c3w c3wPre zeroBanks rfl rfl rfl
    (by decide) (by decide)
  have hs := sna128_canonical_layout.2 decZero c3s (c3sStAt 8) c3sOut rfl hch rfl
    (by decide) (by decide)
  exact ⟨⟨rfl, rfl, rfl, by decide, by decide, hz.1, hz.2.1⟩,
    ⟨rfl, hch, rfl, hs.1, hs.2.1⟩⟩

/-- Witness for C2 at a concrete version-1 Z80 input (`c2z`) and a concrete
SZX input (`c2s`, three compressed 16K pages, SP = 2). -/
theorem sna48_canonical_layout_witness :
    (parseZ80Prelude c2z = Except.ok c2zPre ∧
     z80Banks c2z c2zPre = Except.ok zeroBanks ∧
     c2zPre.machine = ZXMachine.Sinclair48K ∧
     convert_z80_to_sna c2z =
       Except.ok (z80Build48 c2zPre zeroBanks, ZXMachine.Sinclair48K)) ∧
    (szxParseHeader c2s = Except.ok (ZXMachine.Sinclair48K, false) ∧
     szxChunks decZero c2s c2s.length 8 szxInit = Except.ok c2sSt ∧
     szxBuild48 c2sSt = Except.ok c2sOut ∧
     convert_szx_to_sna decZero c2s = Except.ok (c2sOut, ZXMachine.Sinclair48K)) := by
  have hb : z80Banks c2z c2zPre = Except.ok zeroBanks :=
    z80Banks_v1_zero c2z c2zPre rfl rfl rfl
  have hch : szxChunks decZero c2s c2s.length 8 szxInit = Except.ok c2sSt := c2s_chunks
  refine ⟨⟨rfl, hb, rfl, ?_⟩, ⟨rfl, hch, rfl, ?_⟩⟩
  · exact (sna48_canonical_layout.1 c2z c2zPre zeroBanks rfl hb rfl).1
  · exact (sna48_canonical_layout.2 decZero c2s c2sSt c2sOut rfl hch rfl).1

end Zexe
